import Mathlib

/-!
Shallow embedding of the CompAndSave/async-api-queue core.

The repository holds two near-identical modules, both exporting a static
class `AsyncApiQueue` backed by Redis:
  * `src/lib/async-api-queue.js` (namespace `AsyncApiQueue` below), whose
    `setRedis` writes every key with `"EX" expiration`;
  * `src/unnamed/part_000` (namespace `Part000` below), whose `setRedis`
    writes without any expiry.

Redis stores every value as a string and node_redis returns strings from
`GET`, so the JavaScript code manipulates strings: `count >= size` in
`isFullQueue` compares two decimal strings with JavaScript's relational
operator (lexicographic when both operands are strings), `++count` and
`--count` coerce the string to a number (ToNumber), and `!isDone` in
`removeRequest` tests JavaScript falsiness (false and the empty string are
falsy).  The embedding models exactly this fragment of the JavaScript
semantics: `JsNum` is a number-or-NaN, `JsVal` a string-or-number, and the
coercions below follow the ECMAScript rules on the values that actually
flow through the code (decimal integer strings, `"pending"`, payloads).
-/

/-- A JavaScript number restricted to the values reachable here: an integer
or NaN (ToNumber of a non-numeric string). -/
inductive JsNum where
  | int (n : Int)
  | nan
deriving DecidableEq, Repr

/-- A JavaScript value flowing through the queue code: a string (everything
read back from Redis) or a number (literals such as `0`, the configured
size, and the results of `++`/`--`). -/
inductive JsVal where
  | num (j : JsNum)
  | str (s : String)
deriving DecidableEq, Repr

/-- The decimal digit character for `d < 10` (`'0'` to `'9'`). -/
def digitChar (d : Nat) : Char := Char.ofNat (48 + d)

/-- Fuelled most-significant-first decimal digits of a natural number; the
fuel makes the recursion structural so terms reduce by `decide`/`rfl`. -/
def natDigitsGo : Nat → Nat → List Char
  | 0, _ => []
  | fuel + 1, n =>
      if n < 10 then [digitChar n]
      else natDigitsGo fuel (n / 10) ++ [digitChar (n % 10)]

/-- The decimal digit list of `n`, most significant first. -/
def natDigits (n : Nat) : List Char := natDigitsGo (n + 1) n

/-- Decimal string of a natural number (JavaScript ToString of a
nonnegative integer). -/
def natToString (n : Nat) : String := ⟨natDigits n⟩

/-- Decimal string of an integer (JavaScript ToString of an integer). -/
def intToString (i : Int) : String :=
  if i < 0 then "-" ++ natToString (-i).toNat else natToString i.toNat

/-- The value of a decimal digit character, `none` for a non-digit. -/
def digitVal (c : Char) : Option Nat :=
  if 48 ≤ c.toNat ∧ c.toNat ≤ 57 then some (c.toNat - 48) else none

/-- Left fold of decimal digits onto an accumulator; `none` as soon as a
non-digit appears. -/
def parseDigitsAux : Nat → List Char → Option Nat
  | acc, [] => some acc
  | acc, c :: cs =>
      match digitVal c with
      | some d => parseDigitsAux (acc * 10 + d) cs
      | none => none

/-- JavaScript ToNumber on the string fragment used by the program: the
empty string is 0, a decimal integer string (optionally negative) is its
value, anything else is NaN. -/
def jsToNumOfString (s : String) : JsNum :=
  match s.data with
  | [] => .int 0
  | c :: cs =>
      if c = '-' then
        match cs, parseDigitsAux 0 cs with
        | _ :: _, some n => .int (-(n : Int))
        | _, _ => .nan
      else
        match parseDigitsAux 0 (c :: cs) with
        | some n => .int n
        | none => .nan

/-- JavaScript ToNumber of a value. -/
def jsToNum : JsVal → JsNum
  | .num j => j
  | .str s => jsToNumOfString s

/-- JavaScript ToString of a value (numbers print in decimal, NaN prints
as "NaN"); this is what node_redis sends for a non-string `SET` value. -/
def jsToString : JsVal → String
  | .str s => s
  | .num (.int n) => intToString n
  | .num .nan => "NaN"

/-- Lexicographic (code-unit) order on character lists, the order JavaScript
uses to compare two strings. -/
def charListLt : List Char → List Char → Bool
  | [], [] => false
  | [], _ :: _ => true
  | _ :: _, [] => false
  | a :: as, b :: bs =>
      if a < b then true else if b < a then false else charListLt as bs

/-- JavaScript `a < b` on two strings. -/
def jsStrLt (a b : String) : Bool := charListLt a.data b.data

/-- JavaScript `a >= b`: string comparison when both operands are strings,
numeric comparison otherwise (false whenever a NaN is involved). -/
def jsGE (a b : JsVal) : Bool :=
  match a, b with
  | .str x, .str y => ! jsStrLt x y
  | _, _ =>
      match jsToNum a, jsToNum b with
      | .int m, .int n => decide (n ≤ m)
      | _, _ => false

/-- JavaScript `v > 0` (numeric, since the right operand is a number). -/
def jsGtZero (v : JsVal) : Bool :=
  match jsToNum v with
  | .int n => decide (0 < n)
  | .nan => false

/-- JavaScript `++v`: ToNumber then add one. -/
def jsInc (v : JsVal) : JsVal :=
  match jsToNum v with
  | .int n => .num (.int (n + 1))
  | .nan => .num .nan

/-- JavaScript `--v`: ToNumber then subtract one. -/
def jsDec (v : JsVal) : JsVal :=
  match jsToNum v with
  | .int n => .num (.int (n - 1))
  | .nan => .num .nan

section NumStringLemmas

/-- Fuel irrelevance for the digit extractor: any fuel above the argument
yields the same digit list. -/
theorem natDigitsGo_fuel (f g n : Nat) (hf : n < f) (hg : n < g) :
    natDigitsGo f n = natDigitsGo g n := by
  induction f using Nat.strong_induction_on generalizing g n with
  | _ f ih =>
    match f, g with
    | f' + 1, g' + 1 =>
      simp only [natDigitsGo]
      by_cases h10 : n < 10
      · simp [h10]
      · have hdiv : n / 10 < n := Nat.div_lt_self (by omega) (by omega)
        simp only [h10, if_false]
        rw [ih f' (by omega) g' (n / 10) (by omega) (by omega)]

/-- Unfolding characterisation of `natDigits`. -/
theorem natDigits_eq (n : Nat) :
    natDigits n = if n < 10 then [digitChar n]
      else natDigits (n / 10) ++ [digitChar (n % 10)] := by
  by_cases h10 : n < 10
  · simp [natDigits, natDigitsGo, h10]
  · have hdiv : n / 10 < n := Nat.div_lt_self (by omega) (by omega)
    have h1 : natDigits n = natDigitsGo n (n / 10) ++ [digitChar (n % 10)] := by
      simp [natDigits, natDigitsGo, h10]
    rw [h1, natDigitsGo_fuel n (n / 10 + 1) (n / 10) (by omega) (by omega)]
    simp [natDigits, h10]

/-- A digit character parses back to its value. -/
theorem digitVal_digitChar (d : Nat) (hd : d < 10) :
    digitVal (digitChar d) = some d := by
  interval_cases d <;> decide

/-- `parseDigitsAux` distributes over list append. -/
theorem parseDigitsAux_append (acc : Nat) (xs ys : List Char) :
    parseDigitsAux acc (xs ++ ys) =
      match parseDigitsAux acc xs with
      | some a => parseDigitsAux a ys
      | none => none := by
  induction xs generalizing acc with
  | nil => rfl
  | cons c cs ih =>
    simp only [List.cons_append, parseDigitsAux]
    cases digitVal c with
    | some d => exact ih (acc * 10 + d)
    | none => rfl

/-- Parsing the digits of `n` starting from accumulator `acc` yields
`acc` shifted past the digits plus `n`. -/
theorem parseDigitsAux_natDigits (n : Nat) :
    ∀ acc, parseDigitsAux acc (natDigits n) =
      some (acc * 10 ^ (natDigits n).length + n) := by
  induction n using Nat.strong_induction_on with
  | _ n ih =>
    intro acc
    rw [natDigits_eq n]
    by_cases h10 : n < 10
    · simp only [h10, if_true, parseDigitsAux, digitVal_digitChar n h10]
      simp
    · have hdiv : n / 10 < n := Nat.div_lt_self (by omega) (by omega)
      simp only [h10, if_false]
      rw [parseDigitsAux_append]
      rw [ih (n / 10) hdiv acc]
      simp only [parseDigitsAux, digitVal_digitChar (n % 10) (Nat.mod_lt n (by omega))]
      have hmod : (acc * 10 ^ (natDigits (n / 10)).length + n / 10) * 10 + n % 10
          = acc * 10 ^ ((natDigits (n / 10)).length + 1) + n := by
        rw [pow_succ]
        have := Nat.div_add_mod n 10
        ring_nf
        omega
      simp [hmod]

/-- The digit list of `n` is a digit character followed by more characters
(nonempty, and not starting with a minus sign). -/
theorem natDigits_head (n : Nat) :
    ∃ d cs, d < 10 ∧ natDigits n = digitChar d :: cs := by
  induction n using Nat.strong_induction_on with
  | _ n ih =>
    rw [natDigits_eq n]
    by_cases h10 : n < 10
    · exact ⟨n, [], h10, by simp [h10]⟩
    · have hdiv : n / 10 < n := Nat.div_lt_self (by omega) (by omega)
      obtain ⟨d, cs, hd, hcs⟩ := ih (n / 10) hdiv
      exact ⟨d, cs ++ [digitChar (n % 10)], hd, by simp [h10, hcs]⟩

/-- A digit character is not the minus sign. -/
theorem digitChar_ne_minus (d : Nat) (hd : d < 10) : digitChar d ≠ '-' := by
  interval_cases d <;> decide

/-- Round trip: JavaScript ToNumber of the decimal string of `n` is `n`. -/
theorem jsToNumOfString_natToString (n : Nat) :
    jsToNumOfString (natToString n) = .int n := by
  obtain ⟨d, cs, hd, hcs⟩ := natDigits_head n
  have hdata : (natToString n).data = natDigits n := rfl
  rw [jsToNumOfString, hdata, hcs]
  simp only [digitChar_ne_minus d hd, if_false]
  rw [← hcs]
  have := parseDigitsAux_natDigits n 0
  simp only [Nat.zero_mul, Nat.zero_add] at this
  simp [this]

/-- The decimal string of a natural number, seen as an integer, prints the
same way. -/
theorem intToString_natCast (n : Nat) : intToString (n : Int) = natToString n := by
  simp [intToString]

end NumStringLemmas

/-!
The shared store.  Redis maps keys to string values; a key written with
`SET key value "EX" n` additionally carries an expiry of `n` seconds.  The
model records the value and the expiry (`none` when the `SET` attached no
expiry); real time is not modelled — an expired key is simply an absent
key in the state a scenario starts from.
-/

/-- One persisted key: its string value and the expiry attached by the
write that created it (`none` when the write set no expiry). -/
structure Entry where
  value : String
  ttl : Option Nat
deriving DecidableEq, Repr

/-- The shared store: a partial map from keys to entries. -/
def Store := String → Option Entry

/-- The empty store. -/
def emptyStore : Store := fun _ => none

/-- `SET`: overwrite the key with a fresh entry. -/
def storeSet (s : Store) (k : String) (e : Entry) : Store :=
  fun k' => if k' = k then some e else s k'

/-- `DEL`: drop the key. -/
def storeDel (s : Store) (k : String) : Store :=
  fun k' => if k' = k then none else s k'

/-- `GET`: the string value at the key, `null` when absent. -/
def storeGet (s : Store) (k : String) : Option String :=
  (s k).map Entry.value

/-- The entry (value and expiry) at the key. -/
def storeEntry (s : Store) (k : String) : Option Entry := s k

/-- Static configuration of the class, fixed by `initialize`: the queue
size and the cache expiration in seconds. -/
structure Config where
  size : Nat
  expiration : Nat
deriving DecidableEq, Repr

theorem storeGet_set_same (s : Store) (k : String) (e : Entry) :
    storeGet (storeSet s k e) k = some e.value := by
  simp [storeGet, storeSet]

theorem storeGet_set_ne (s : Store) (k k' : String) (e : Entry) (h : k' ≠ k) :
    storeGet (storeSet s k e) k' = storeGet s k' := by
  simp [storeGet, storeSet, h]

theorem storeGet_del_same (s : Store) (k : String) :
    storeGet (storeDel s k) k = none := by
  simp [storeGet, storeDel]

theorem storeGet_del_ne (s : Store) (k k' : String) (h : k' ≠ k) :
    storeGet (storeDel s k) k' = storeGet s k' := by
  simp [storeGet, storeDel, h]

namespace AsyncApiQueue

/-!
`src/lib/async-api-queue.js`, the documented module.  Each static method
becomes a function over `Config` and `Store`; an asynchronous method that
both returns a value and mutates Redis becomes a pair (result, new store).
The local `EventEmitter` (`emitter.emit("setDone", id)` → a `console.log`)
is purely observational and has no effect on the store or on any result,
so it has no counterpart in the state.
-/

/-- `setRedis(key, value)`: `client.set(key, value, "EX", expiration)` —
the value is coerced to a string and the key carries the configured
expiration.  Resolves with Redis's `"OK"`. -/
def setRedis (cfg : Config) (s : Store) (key : String) (value : JsVal) :
    String × Store :=
  ("OK", storeSet s key ⟨jsToString value, some cfg.expiration⟩)

/-- `getRedis(key)`: `client.get(key)` — the stored string or `null`. -/
def getRedis (s : Store) (key : String) : Option String :=
  storeGet s key

/-- `delRedis(key)`: `client.del(key)` — the number of keys removed. -/
def delRedis (s : Store) (key : String) : Nat × Store :=
  if (s key).isSome then (1, storeDel s key) else (0, s)

/-- `setSize(value)`. -/
def setSize (cfg : Config) (s : Store) (value : JsVal) : String × Store :=
  setRedis cfg s "QUEUE_SIZE" value

/-- `setCount(value)`. -/
def setCount (cfg : Config) (s : Store) (value : JsVal) : String × Store :=
  setRedis cfg s "QUEUE_COUNT" value

/-- `initializeRedis()`: `Promise.all([setCount(0), setSize(size)])` —
both writes are issued, `setCount(0)` first. -/
def initializeRedis (cfg : Config) (s : Store) : Store :=
  (setSize cfg (setCount cfg s (.num (.int 0))).2 (.num (.int cfg.size))).2

/-- `getSize()`: read `QUEUE_SIZE`; on `null` run `initializeRedis` and
return the configured size (a number), otherwise the stored string. -/
def getSize (cfg : Config) (s : Store) : JsVal × Store :=
  match getRedis s "QUEUE_SIZE" with
  | none => (.num (.int cfg.size), initializeRedis cfg s)
  | some v => (.str v, s)

/-- `getCount()`: read `QUEUE_COUNT`; on `null` run `initializeRedis` and
return the number `0`, otherwise the stored string. -/
def getCount (cfg : Config) (s : Store) : JsVal × Store :=
  match getRedis s "QUEUE_COUNT" with
  | none => (.num (.int 0), initializeRedis cfg s)
  | some v => (.str v, s)

/-- `up1Count()`: `setCount(++count)` on the value `getCount()` returned. -/
def up1Count (cfg : Config) (s : Store) : String × Store :=
  let cs := getCount cfg s
  setCount cfg cs.2 (jsInc cs.1)

/-- `down1Count()`: `setCount(count > 0 ? --count : 0)`. -/
def down1Count (cfg : Config) (s : Store) : String × Store :=
  let cs := getCount cfg s
  setCount cfg cs.2 (if jsGtZero cs.1 then jsDec cs.1 else .num (.int 0))

/-- `isFullQueue()`: `count >= size` with JavaScript's relational operator
on the two values `getCount()` and `getSize()` returned. -/
def isFullQueue (cfg : Config) (s : Store) : Bool × Store :=
  let cs := getCount cfg s
  let zs := getSize cfg cs.2
  (jsGE cs.1 zs.1, zs.2)

/-- `setRequest(key)`: `setRedis(key, "pending")`. -/
def setRequest (cfg : Config) (key : String) (s : Store) : String × Store :=
  setRedis cfg s key (.str "pending")

/-- `addRequest()`: reject with the string `no-of-request-is-at-limit`
when `isFullQueue()`, else `up1Count()`. -/
def addRequest (cfg : Config) (s : Store) : Except String String × Store :=
  let fs := isFullQueue cfg s
  if fs.1 then (.error "no-of-request-is-at-limit", fs.2)
  else
    let rs := up1Count cfg fs.2
    (.ok rs.1, rs.2)

/-- The three observationally distinct results of `checkDone`: `null`
(no record), `false` (value is `"pending"`), or the stored value. -/
inductive DoneRes where
  | nullv
  | falsev
  | strv (v : String)
deriving DecidableEq, Repr

/-- `checkDone(id)`: `result === "pending" ? false : result`. -/
def checkDone (id : String) (s : Store) : DoneRes :=
  match getRedis s id with
  | none => .nullv
  | some v => if v = "pending" then .falsev else .strv v

/-- JavaScript `!isDone` on a `checkDone` result: `false` is falsy, and so
is the empty string. -/
def jsFalsyDone : DoneRes → Bool
  | .nullv => true
  | .falsev => true
  | .strv v => v = ""

/-- `removeRequest(id)`: if `checkDone(id)` is not `null`, delete the key;
if the deletion returned 1 and `!isDone`, also `down1Count()`. -/
def removeRequest (cfg : Config) (id : String) (s : Store) : Nat × Store :=
  let isDone := checkDone id s
  if isDone = .nullv then (0, s)
  else
    let rs := delRedis s id
    if rs.1 = 1 && jsFalsyDone isDone then (rs.1, (down1Count cfg rs.2).2)
    else rs

/-- `setDone(id, response)`: `setRedis(id, response)`, emit the local
`setDone` event (no store effect), then `down1Count()`; resolves with the
`setRedis` result. -/
def setDone (cfg : Config) (id response : String) (s : Store) : String × Store :=
  let rs := setRedis cfg s id (.str response)
  (rs.1, (down1Count cfg rs.2).2)

end AsyncApiQueue

deriving instance DecidableEq for Except

namespace Part000

/-!
`src/unnamed/part_000`, the second copy of the class.  Its methods are
textually identical to the lib module's except for the Redis layer: its
`setRedis(key, value)` calls `client.set(key, value, cb)` with no
`"EX" expiration` argument, so no expiry is attached to any write, and its
`initialize` takes no expiration parameter (`Config.expiration` is unused
in this namespace).
-/

/-- `setRedis(key, value)`: `client.set(key, value)` — no expiry. -/
def setRedis (_cfg : Config) (s : Store) (key : String) (value : JsVal) :
    String × Store :=
  ("OK", storeSet s key ⟨jsToString value, none⟩)

/-- `getRedis(key)`. -/
def getRedis (s : Store) (key : String) : Option String :=
  storeGet s key

/-- `delRedis(key)`. -/
def delRedis (s : Store) (key : String) : Nat × Store :=
  if (s key).isSome then (1, storeDel s key) else (0, s)

/-- `setSize(value)`. -/
def setSize (cfg : Config) (s : Store) (value : JsVal) : String × Store :=
  setRedis cfg s "QUEUE_SIZE" value

/-- `setCount(value)`. -/
def setCount (cfg : Config) (s : Store) (value : JsVal) : String × Store :=
  setRedis cfg s "QUEUE_COUNT" value

/-- `initializeRedis()`. -/
def initializeRedis (cfg : Config) (s : Store) : Store :=
  (setSize cfg (setCount cfg s (.num (.int 0))).2 (.num (.int cfg.size))).2

/-- `getSize()`. -/
def getSize (cfg : Config) (s : Store) : JsVal × Store :=
  match getRedis s "QUEUE_SIZE" with
  | none => (.num (.int cfg.size), initializeRedis cfg s)
  | some v => (.str v, s)

/-- `getCount()`. -/
def getCount (cfg : Config) (s : Store) : JsVal × Store :=
  match getRedis s "QUEUE_COUNT" with
  | none => (.num (.int 0), initializeRedis cfg s)
  | some v => (.str v, s)

/-- `up1Count()`. -/
def up1Count (cfg : Config) (s : Store) : String × Store :=
  let cs := getCount cfg s
  setCount cfg cs.2 (jsInc cs.1)

/-- `down1Count()`. -/
def down1Count (cfg : Config) (s : Store) : String × Store :=
  let cs := getCount cfg s
  setCount cfg cs.2 (if jsGtZero cs.1 then jsDec cs.1 else .num (.int 0))

/-- `isFullQueue()`. -/
def isFullQueue (cfg : Config) (s : Store) : Bool × Store :=
  let cs := getCount cfg s
  let zs := getSize cfg cs.2
  (jsGE cs.1 zs.1, zs.2)

/-- `setRequest(key)`. -/
def setRequest (cfg : Config) (key : String) (s : Store) : String × Store :=
  setRedis cfg s key (.str "pending")

/-- `addRequest()`. -/
def addRequest (cfg : Config) (s : Store) : Except String String × Store :=
  let fs := isFullQueue cfg s
  if fs.1 then (.error "no-of-request-is-at-limit", fs.2)
  else
    let rs := up1Count cfg fs.2
    (.ok rs.1, rs.2)

/-- `checkDone(id)`. -/
def checkDone (id : String) (s : Store) : AsyncApiQueue.DoneRes :=
  match getRedis s id with
  | none => .nullv
  | some v => if v = "pending" then .falsev else .strv v

/-- `removeRequest(id)`. -/
def removeRequest (cfg : Config) (id : String) (s : Store) : Nat × Store :=
  let isDone := checkDone id s
  if isDone = .nullv then (0, s)
  else
    let rs := delRedis s id
    if rs.1 = 1 && AsyncApiQueue.jsFalsyDone isDone then
      (rs.1, (down1Count cfg rs.2).2)
    else rs

/-- `setDone(id, response)`. -/
def setDone (cfg : Config) (id response : String) (s : Store) : String × Store :=
  let rs := setRedis cfg s id (.str response)
  (rs.1, (down1Count cfg rs.2).2)

end Part000

theorem storeEntry_set_same (s : Store) (k : String) (e : Entry) :
    storeEntry (storeSet s k e) k = some e := by
  simp [storeEntry, storeSet]

theorem storeEntry_set_ne (s : Store) (k k' : String) (e : Entry)
    (h : k' ≠ k) : storeEntry (storeSet s k e) k' = storeEntry s k' := by
  simp [storeEntry, storeSet, h]

theorem storeGet_eq_entry_value (s : Store) (k : String) :
    storeGet s k = (storeEntry s k).map Entry.value := rfl

/-- The decimal string of zero. -/
theorem natToString_zero : natToString 0 = "0" := by decide

/-- ToString of a number that is a natural-number cast. -/
theorem jsToString_num_natCast (n : Nat) :
    jsToString (.num (.int (n : Int))) = natToString n := by
  simp [jsToString, intToString_natCast]

/-- ToString of the number literal 0. -/
theorem jsToString_zero : jsToString (.num (.int 0)) = "0" := by decide

/-- `++` on the decimal string of `n` gives the number `n + 1`. -/
theorem jsInc_natToString (n : Nat) :
    jsInc (.str (natToString n)) = .num (.int ((n : Int) + 1)) := by
  simp [jsInc, jsToNum, jsToNumOfString_natToString]

/-- `--` on the decimal string of `n` gives the number `n - 1`. -/
theorem jsDec_natToString (n : Nat) :
    jsDec (.str (natToString n)) = .num (.int ((n : Int) - 1)) := by
  simp [jsDec, jsToNum, jsToNumOfString_natToString]

/-- `count > 0` on the decimal string of `n` decides `0 < n`. -/
theorem jsGtZero_natToString (n : Nat) :
    jsGtZero (.str (natToString n)) = decide (0 < n) := by
  simp [jsGtZero, jsToNum, jsToNumOfString_natToString]

namespace AsyncApiQueue

theorem initializeRedis_entry_size (cfg : Config) (s : Store) :
    storeEntry (initializeRedis cfg s) "QUEUE_SIZE"
      = some ⟨natToString cfg.size, some cfg.expiration⟩ := by
  simp [initializeRedis, setSize, setCount, setRedis, storeEntry_set_same,
    jsToString_num_natCast]

theorem initializeRedis_entry_count (cfg : Config) (s : Store) :
    storeEntry (initializeRedis cfg s) "QUEUE_COUNT"
      = some ⟨"0", some cfg.expiration⟩ := by
  simp [initializeRedis, setSize, setCount, setRedis, storeEntry_set_ne,
    storeEntry_set_same, jsToString_zero]

theorem initializeRedis_entry_other (cfg : Config) (s : Store) (k : String)
    (h1 : k ≠ "QUEUE_SIZE") (h2 : k ≠ "QUEUE_COUNT") :
    storeEntry (initializeRedis cfg s) k = storeEntry s k := by
  simp [initializeRedis, setSize, setCount, setRedis, storeEntry_set_ne, h1, h2]

theorem getCount_present (cfg : Config) (s : Store) (v : String)
    (h : storeGet s "QUEUE_COUNT" = some v) :
    getCount cfg s = (.str v, s) := by
  simp [getCount, getRedis, h]

theorem getSize_present (cfg : Config) (s : Store) (v : String)
    (h : storeGet s "QUEUE_SIZE" = some v) :
    getSize cfg s = (.str v, s) := by
  simp [getSize, getRedis, h]

theorem getCount_entry_other (cfg : Config) (s : Store) (k : String)
    (h1 : k ≠ "QUEUE_SIZE") (h2 : k ≠ "QUEUE_COUNT") :
    storeEntry (getCount cfg s).2 k = storeEntry s k := by
  cases hg : storeGet s "QUEUE_COUNT" with
  | none => simp [getCount, getRedis, hg, initializeRedis_entry_other cfg s k h1 h2]
  | some v => simp [getCount, getRedis, hg]

theorem getSize_entry_other (cfg : Config) (s : Store) (k : String)
    (h1 : k ≠ "QUEUE_SIZE") (h2 : k ≠ "QUEUE_COUNT") :
    storeEntry (getSize cfg s).2 k = storeEntry s k := by
  cases hg : storeGet s "QUEUE_SIZE" with
  | none => simp [getSize, getRedis, hg, initializeRedis_entry_other cfg s k h1 h2]
  | some v => simp [getSize, getRedis, hg]

theorem up1Count_entry_other (cfg : Config) (s : Store) (k : String)
    (h1 : k ≠ "QUEUE_SIZE") (h2 : k ≠ "QUEUE_COUNT") :
    storeEntry (up1Count cfg s).2 k = storeEntry s k := by
  simp only [up1Count, setCount, setRedis]
  rw [storeEntry_set_ne _ _ _ _ h2, getCount_entry_other cfg s k h1 h2]

theorem down1Count_entry_other (cfg : Config) (s : Store) (k : String)
    (h1 : k ≠ "QUEUE_SIZE") (h2 : k ≠ "QUEUE_COUNT") :
    storeEntry (down1Count cfg s).2 k = storeEntry s k := by
  simp only [down1Count, setCount, setRedis]
  rw [storeEntry_set_ne _ _ _ _ h2, getCount_entry_other cfg s k h1 h2]

/-- On a store whose counter holds the decimal string of `n`, `up1Count`
writes the decimal string of `n + 1` (with the configured expiry) and
changes nothing else. -/
theorem up1Count_spec (cfg : Config) (s : Store) (n : Nat)
    (h : storeGet s "QUEUE_COUNT" = some (natToString n)) :
    up1Count cfg s =
      ("OK", storeSet s "QUEUE_COUNT"
        ⟨natToString (n + 1), some cfg.expiration⟩) := by
  rw [up1Count, getCount_present cfg s _ h]
  simp [setCount, setRedis, jsInc_natToString]
  rw [show ((n : Int) + 1) = ((n + 1 : Nat) : Int) by push_cast; ring]
  rw [jsToString_num_natCast]

/-- On a store whose counter holds the decimal string of `n`, `down1Count`
writes the decimal string of `n - 1` (truncated at zero: the code floors
the decrement) and changes nothing else. -/
theorem down1Count_spec (cfg : Config) (s : Store) (n : Nat)
    (h : storeGet s "QUEUE_COUNT" = some (natToString n)) :
    down1Count cfg s =
      ("OK", storeSet s "QUEUE_COUNT"
        ⟨natToString (n - 1), some cfg.expiration⟩) := by
  rw [down1Count, getCount_present cfg s _ h]
  simp only [setCount, setRedis]
  by_cases hn : 0 < n
  · have hb : jsGtZero (JsVal.str (natToString n)) = true := by
      rw [jsGtZero_natToString]; exact decide_eq_true hn
    rw [if_pos hb, jsDec_natToString,
      show ((n : Int) - 1) = ((n - 1 : Nat) : Int) by omega,
      jsToString_num_natCast]
  · have hb : ¬ jsGtZero (JsVal.str (natToString n)) = true := by
      rw [jsGtZero_natToString]; simpa using hn
    rw [if_neg hb, jsToString_zero, show n - 1 = 0 by omega, natToString_zero]

end AsyncApiQueue

namespace AsyncApiQueue

/-- Iterated `addRequest`: whether every one of the `n` calls resolved,
and the store after them. -/
def addRequestN (cfg : Config) : Nat → Store → Bool × Store
  | 0, s => (true, s)
  | n + 1, s =>
      let rs := addRequest cfg s
      let rest := addRequestN cfg n rs.2
      ((match rs.1 with
        | .ok _ => true
        | .error _ => false) && rest.1, rest.2)

end AsyncApiQueue

/-- Shared demonstration configuration: size 5, expiration 86400. -/
def demoCfg : Config := ⟨5, 86400⟩

/-- Shared demonstration store: the keys a fresh `initialize` persists. -/
def demoInit : Store := AsyncApiQueue.initializeRedis demoCfg emptyStore

/-- C1: with configured capacity 10, the first two `addRequest` calls
from a freshly initialized store succeed and leave the persisted
in-flight count at the decimal string "2" — numerically 2, far below the
capacity 10 — yet the third call (which the claim requires to succeed)
is rejected with `no-of-request-is-at-limit`: `isFullQueue` compares the
two strings `GET` returned with JavaScript `>=`, which on two strings is
lexicographic, and `"2" >= "10"` is true although 2 < 10. -/
theorem c1_third_addRequest_rejected_below_capacity :
    (AsyncApiQueue.addRequestN ⟨10, 86400⟩ 2
        (AsyncApiQueue.initializeRedis ⟨10, 86400⟩ emptyStore)).1 = true ∧
    storeGet (AsyncApiQueue.addRequestN ⟨10, 86400⟩ 2
        (AsyncApiQueue.initializeRedis ⟨10, 86400⟩ emptyStore)).2 "QUEUE_COUNT"
      = some "2" ∧
    (AsyncApiQueue.addRequest ⟨10, 86400⟩
        (AsyncApiQueue.addRequestN ⟨10, 86400⟩ 2
          (AsyncApiQueue.initializeRedis ⟨10, 86400⟩ emptyStore)).2).1
      = .error "no-of-request-is-at-limit" ∧
    jsToNumOfString "2" = .int 2 ∧ (2 : Nat) < 10 ∧
    jsGE (.str "2") (.str "10") = true := by
  decide

/-- C8: when the persisted capacity key is absent, `getSize` initializes
both persisted keys (capacity = configured value, in-flight = 0) and
returns the configured capacity; when the persisted in-flight key is
absent, `getCount` performs the same initialization and returns 0; when
the key a getter reads is present, that getter performs no store write
and returns the persisted value. -/
theorem c8_getters_init_and_readthrough (cfg : Config) (s : Store)
    (a b : String) :
    (storeGet s "QUEUE_SIZE" = none →
      (AsyncApiQueue.getSize cfg s).1 = .num (.int cfg.size) ∧
      storeGet (AsyncApiQueue.getSize cfg s).2 "QUEUE_SIZE"
        = some (natToString cfg.size) ∧
      storeGet (AsyncApiQueue.getSize cfg s).2 "QUEUE_COUNT" = some "0") ∧
    (storeGet s "QUEUE_COUNT" = none →
      (AsyncApiQueue.getCount cfg s).1 = .num (.int 0) ∧
      storeGet (AsyncApiQueue.getCount cfg s).2 "QUEUE_SIZE"
        = some (natToString cfg.size) ∧
      storeGet (AsyncApiQueue.getCount cfg s).2 "QUEUE_COUNT" = some "0") ∧
    (storeGet s "QUEUE_SIZE" = some a →
      AsyncApiQueue.getSize cfg s = (.str a, s)) ∧
    (storeGet s "QUEUE_COUNT" = some b →
      AsyncApiQueue.getCount cfg s = (.str b, s)) := by
  refine ⟨fun h => ?_, fun h => ?_, AsyncApiQueue.getSize_present cfg s a,
    AsyncApiQueue.getCount_present cfg s b⟩
  · simp only [AsyncApiQueue.getSize, AsyncApiQueue.getRedis, h]
    refine ⟨by trivial, ?_, ?_⟩ <;>
      simp [storeGet_eq_entry_value, AsyncApiQueue.initializeRedis_entry_size,
        AsyncApiQueue.initializeRedis_entry_count]
  · simp only [AsyncApiQueue.getCount, AsyncApiQueue.getRedis, h]
    refine ⟨by trivial, ?_, ?_⟩ <;>
      simp [storeGet_eq_entry_value, AsyncApiQueue.initializeRedis_entry_size,
        AsyncApiQueue.initializeRedis_entry_count]

/-- Witness for C8: concrete instances of all four branches (the two
initializing reads on the empty store, the two read-throughs on a freshly
initialized store). -/
theorem c8_witness :
    ((AsyncApiQueue.getSize demoCfg emptyStore).1 = .num (.int 5) ∧
      storeGet (AsyncApiQueue.getSize demoCfg emptyStore).2 "QUEUE_SIZE"
        = some (natToString 5) ∧
      storeGet (AsyncApiQueue.getSize demoCfg emptyStore).2 "QUEUE_COUNT"
        = some "0") ∧
    ((AsyncApiQueue.getCount demoCfg emptyStore).1 = .num (.int 0)) ∧
    (AsyncApiQueue.getSize demoCfg demoInit = (.str (natToString 5), demoInit)) ∧
    (AsyncApiQueue.getCount demoCfg demoInit = (.str "0", demoInit)) := by
  have h1 := c8_getters_init_and_readthrough demoCfg emptyStore "" ""
  have h2 := c8_getters_init_and_readthrough demoCfg demoInit (natToString 5) "0"
  exact ⟨h1.1 (by decide), (h1.2.1 (by decide)).1,
    h2.2.2.1 (by decide), h2.2.2.2 (by decide)⟩

/-- C9: in the lib module the counter keys go through the expiring
`setRedis` — `setSize` and `setCount` store `QUEUE_SIZE`/`QUEUE_COUNT`
with the configured expiration attached — so the persisted counter state
expires with its last write; and once both keys are absent (expired), the
next `getSize`/`getCount` silently re-initializes the persisted state to
capacity = configured value and in-flight = 0 (again with the expiry),
discarding whatever count was there before. -/
theorem c9_counter_keys_expire_and_reinit (cfg : Config) (s : Store)
    (v : JsVal) :
    (storeEntry (AsyncApiQueue.setSize cfg s v).2 "QUEUE_SIZE"
      = some ⟨jsToString v, some cfg.expiration⟩) ∧
    (storeEntry (AsyncApiQueue.setCount cfg s v).2 "QUEUE_COUNT"
      = some ⟨jsToString v, some cfg.expiration⟩) ∧
    (storeGet s "QUEUE_SIZE" = none →
      (AsyncApiQueue.getSize cfg s).1 = .num (.int cfg.size) ∧
      storeEntry (AsyncApiQueue.getSize cfg s).2 "QUEUE_SIZE"
        = some ⟨natToString cfg.size, some cfg.expiration⟩ ∧
      storeEntry (AsyncApiQueue.getSize cfg s).2 "QUEUE_COUNT"
        = some ⟨"0", some cfg.expiration⟩) ∧
    (storeGet s "QUEUE_COUNT" = none →
      (AsyncApiQueue.getCount cfg s).1 = .num (.int 0) ∧
      storeEntry (AsyncApiQueue.getCount cfg s).2 "QUEUE_SIZE"
        = some ⟨natToString cfg.size, some cfg.expiration⟩ ∧
      storeEntry (AsyncApiQueue.getCount cfg s).2 "QUEUE_COUNT"
        = some ⟨"0", some cfg.expiration⟩) := by
  refine ⟨?_, ?_, fun h => ?_, fun h => ?_⟩
  · simp [AsyncApiQueue.setSize, AsyncApiQueue.setRedis, storeEntry_set_same]
  · simp [AsyncApiQueue.setCount, AsyncApiQueue.setRedis, storeEntry_set_same]
  · simp only [AsyncApiQueue.getSize, AsyncApiQueue.getRedis, h]
    exact ⟨by trivial, AsyncApiQueue.initializeRedis_entry_size cfg s,
      AsyncApiQueue.initializeRedis_entry_count cfg s⟩
  · simp only [AsyncApiQueue.getCount, AsyncApiQueue.getRedis, h]
    exact ⟨by trivial, AsyncApiQueue.initializeRedis_entry_size cfg s,
      AsyncApiQueue.initializeRedis_entry_count cfg s⟩

/-- Witness for C9: the expiring counter writes and the re-initializing
reads, on the empty (fully expired) store. -/
theorem c9_witness :
    (storeEntry (AsyncApiQueue.setSize demoCfg emptyStore (.num (.int 5))).2
      "QUEUE_SIZE" = some ⟨jsToString (.num (.int 5)), some 86400⟩) ∧
    ((AsyncApiQueue.getCount demoCfg emptyStore).1 = .num (.int 0)) ∧
    (storeEntry (AsyncApiQueue.getCount demoCfg emptyStore).2 "QUEUE_COUNT"
      = some ⟨"0", some 86400⟩) := by
  have h := c9_counter_keys_expire_and_reinit demoCfg emptyStore (.num (.int 5))
  exact ⟨h.1, (h.2.2.2 (by decide)).1, (h.2.2.2 (by decide)).2.2⟩

/-- C5 counterexample: in the `part_000` module, `setRequest` (a slot
write) stores the key with no time-to-live at all, not with the
configured `ttlSeconds` (86400 here): the claim fails for that module. -/
theorem c5_part000_slot_write_has_no_ttl :
    ¬ storeEntry (Part000.setRequest ⟨5, 86400⟩ "a" emptyStore).2 "a"
      = some ⟨"pending", some 86400⟩ := by
  decide

/-- C5 amended: in the lib module every slot write — `setRequest(id)`
writing `"pending"` and `setDone(id, payload)` writing the payload —
stores the key with the configured expiration attached, so the slot
self-destructs after `ttlSeconds`; in the `part_000` module the same
writes attach no expiry at all. -/
theorem c5_slot_writes_ttl (cfg : Config) (s : Store) (id payload : String)
    (h1 : id ≠ "QUEUE_SIZE") (h2 : id ≠ "QUEUE_COUNT") :
    storeEntry (AsyncApiQueue.setRequest cfg id s).2 id
      = some ⟨"pending", some cfg.expiration⟩ ∧
    storeEntry (AsyncApiQueue.setDone cfg id payload s).2 id
      = some ⟨payload, some cfg.expiration⟩ ∧
    storeEntry (Part000.setRequest cfg id s).2 id
      = some ⟨"pending", none⟩ := by
  refine ⟨?_, ?_, ?_⟩
  · simp [AsyncApiQueue.setRequest, AsyncApiQueue.setRedis, storeEntry_set_same,
      jsToString]
  · simp only [AsyncApiQueue.setDone, AsyncApiQueue.setRedis]
    rw [AsyncApiQueue.down1Count_entry_other cfg _ id h1 h2]
    simp [storeEntry_set_same, jsToString]
  · simp [Part000.setRequest, Part000.setRedis, storeEntry_set_same, jsToString]

/-- Witness for C5 amended: the three writes at a concrete id and
payload. -/
theorem c5_witness :
    storeEntry (AsyncApiQueue.setRequest demoCfg "a" emptyStore).2 "a"
      = some ⟨"pending", some 86400⟩ ∧
    storeEntry (AsyncApiQueue.setDone demoCfg "a" "done" emptyStore).2 "a"
      = some ⟨"done", some 86400⟩ ∧
    storeEntry (Part000.setRequest demoCfg "a" emptyStore).2 "a"
      = some ⟨"pending", none⟩ := by
  exact c5_slot_writes_ttl demoCfg emptyStore "a" "done"
    (by decide) (by decide)

namespace AsyncApiQueue

/-- With both counter keys present, `isFullQueue` reads them, compares the
two strings with JavaScript `>=`, and leaves the store unchanged. -/
theorem isFullQueue_present (cfg : Config) (s : Store) (cn z : String)
    (hc : storeGet s "QUEUE_COUNT" = some cn)
    (hz : storeGet s "QUEUE_SIZE" = some z) :
    isFullQueue cfg s = (jsGE (.str cn) (.str z), s) := by
  simp [isFullQueue, getCount_present cfg s cn hc, getSize_present cfg s z hz]

/-- A non-full `addRequest` on a store with numeric counter `n` resolves
with `"OK"` and bumps the persisted counter to `n + 1`. -/
theorem addRequest_spec (cfg : Config) (s : Store) (n : Nat) (z : String)
    (hc : storeGet s "QUEUE_COUNT" = some (natToString n))
    (hz : storeGet s "QUEUE_SIZE" = some z)
    (hfull : jsGE (.str (natToString n)) (.str z) = false) :
    addRequest cfg s =
      (.ok "OK", storeSet s "QUEUE_COUNT"
        ⟨natToString (n + 1), some cfg.expiration⟩) := by
  rw [addRequest, isFullQueue_present cfg s _ _ hc hz]
  simp only [hfull, Bool.false_eq_true, if_false]
  rw [up1Count_spec cfg s n hc]

/-- `setDone` on a store with numeric counter `n`: it writes the payload
at the id unconditionally (no existence or status check) and floors the
decremented counter at zero. -/
theorem setDone_spec (cfg : Config) (s : Store) (id payload : String)
    (n : Nat) (_hid1 : id ≠ "QUEUE_SIZE") (hid2 : id ≠ "QUEUE_COUNT")
    (hc : storeGet s "QUEUE_COUNT" = some (natToString n)) :
    setDone cfg id payload s =
      ("OK", storeSet (storeSet s id ⟨payload, some cfg.expiration⟩)
        "QUEUE_COUNT" ⟨natToString (n - 1), some cfg.expiration⟩) := by
  rw [setDone]
  simp only [setRedis, jsToString]
  rw [down1Count_spec cfg _ n
    (by rw [storeGet_set_ne _ _ _ _ (Ne.symm hid2)]; exact hc)]

end AsyncApiQueue

/-- C2 counterexample: the payload `"pending"` collides with the status
sentinel.  After `addRequest`, `setRequest("a")`, `setDone("a",
"pending")` from a fresh store, `checkDone("a")` returns `false` (the
observable for a Pending slot), not the stored payload: `Done("pending")`
is not distinguishable from Pending, so the claim fails at this payload. -/
theorem c2_payload_pending_indistinguishable :
    AsyncApiQueue.checkDone "a"
      (AsyncApiQueue.setDone demoCfg "a" "pending"
        (AsyncApiQueue.setRequest demoCfg "a"
          (AsyncApiQueue.addRequest demoCfg demoInit).2).2).2
      = .falsev ∧
    AsyncApiQueue.DoneRes.falsev ≠ AsyncApiQueue.DoneRes.strv "pending" := by
  decide

/-- C2 amended: for every request id (other than the two reserved counter
keys) and every payload other than the sentinel string `"pending"`, after
a successful `addRequest` (reserve) and `setRequest(id)` (mark pending)
followed by `setDone(id, payload)`, `checkDone(id)` returns the stored
payload (distinguishable from Pending = `false` and Absent = `null`),
and the persisted in-flight count is back to `n`, exactly 1 below its
value `n + 1` right after the reserve. -/
theorem c2_setDone_then_checkDone_and_decrement (cfg : Config) (s : Store)
    (id payload z : String) (n : Nat)
    (hid1 : id ≠ "QUEUE_SIZE") (hid2 : id ≠ "QUEUE_COUNT")
    (hpay : payload ≠ "pending")
    (hc : storeGet s "QUEUE_COUNT" = some (natToString n))
    (hz : storeGet s "QUEUE_SIZE" = some z)
    (hfull : jsGE (.str (natToString n)) (.str z) = false) :
    (AsyncApiQueue.addRequest cfg s).1 = .ok "OK" ∧
    storeGet (AsyncApiQueue.addRequest cfg s).2 "QUEUE_COUNT"
      = some (natToString (n + 1)) ∧
    AsyncApiQueue.checkDone id
      (AsyncApiQueue.setDone cfg id payload
        (AsyncApiQueue.setRequest cfg id
          (AsyncApiQueue.addRequest cfg s).2).2).2
      = .strv payload ∧
    storeGet (AsyncApiQueue.setDone cfg id payload
        (AsyncApiQueue.setRequest cfg id
          (AsyncApiQueue.addRequest cfg s).2).2).2 "QUEUE_COUNT"
      = some (natToString n) := by
  rw [AsyncApiQueue.addRequest_spec cfg s n z hc hz hfull]
  simp only [AsyncApiQueue.setRequest, AsyncApiQueue.setRedis, jsToString]
  rw [AsyncApiQueue.setDone_spec cfg _ id payload (n + 1) hid1 hid2
    (by rw [storeGet_set_ne _ _ _ _ (Ne.symm hid2), storeGet_set_same])]
  refine ⟨by trivial, by rw [storeGet_set_same], ?_, ?_⟩
  · rw [AsyncApiQueue.checkDone, AsyncApiQueue.getRedis,
      storeGet_set_ne _ _ _ _ hid2, storeGet_set_same]
    simp [hpay]
  · rw [storeGet_set_same]
    simp

/-- Witness for C2 amended: id `"a"`, payload `"done"`, fresh store of
size 5 (counter `"0"`, size `"5"`). -/
theorem c2_witness :
    (AsyncApiQueue.addRequest demoCfg demoInit).1 = .ok "OK" ∧
    AsyncApiQueue.checkDone "a"
      (AsyncApiQueue.setDone demoCfg "a" "done"
        (AsyncApiQueue.setRequest demoCfg "a"
          (AsyncApiQueue.addRequest demoCfg demoInit).2).2).2
      = .strv "done" ∧
    storeGet (AsyncApiQueue.setDone demoCfg "a" "done"
        (AsyncApiQueue.setRequest demoCfg "a"
          (AsyncApiQueue.addRequest demoCfg demoInit).2).2).2 "QUEUE_COUNT"
      = some (natToString 0) := by
  have h := c2_setDone_then_checkDone_and_decrement demoCfg demoInit
    "a" "done" "5" 0 (by decide) (by decide) (by decide)
    (by decide) (by decide) (by decide)
  exact ⟨h.1, h.2.2.1, h.2.2.2⟩

/-- C10: `setDone(id, payload)` performs no existence or status check:
on every store whose counter holds the decimal string of `n` — the slot
at `id` may be Absent, Pending or Done — it overwrites the slot with the
payload (with the configured expiry) and floors the decremented counter
at zero; applying it a second time decrements the counter again. -/
theorem c10_setDone_unconditional (cfg : Config) (s : Store)
    (id payload : String) (n : Nat)
    (hid1 : id ≠ "QUEUE_SIZE") (hid2 : id ≠ "QUEUE_COUNT")
    (hc : storeGet s "QUEUE_COUNT" = some (natToString n)) :
    storeEntry (AsyncApiQueue.setDone cfg id payload s).2 id
      = some ⟨payload, some cfg.expiration⟩ ∧
    storeGet (AsyncApiQueue.setDone cfg id payload s).2 "QUEUE_COUNT"
      = some (natToString (n - 1)) ∧
    storeGet (AsyncApiQueue.setDone cfg id payload
        (AsyncApiQueue.setDone cfg id payload s).2).2 "QUEUE_COUNT"
      = some (natToString (n - 1 - 1)) := by
  rw [AsyncApiQueue.setDone_spec cfg s id payload n hid1 hid2 hc]
  refine ⟨?_, by rw [storeGet_set_same], ?_⟩
  · rw [storeEntry_set_ne _ _ _ _ hid2, storeEntry_set_same]
  · rw [AsyncApiQueue.setDone_spec cfg _ id payload (n - 1) hid1 hid2
      (by rw [storeGet_set_same])]
    rw [storeGet_set_same]

/-- Witness for C10: `setDone` on a never-reserved id over a fresh store
(counter `"0"`): the slot is created and the counter floors at `"0"`;
the repeated call floors again. -/
theorem c10_witness :
    storeEntry (AsyncApiQueue.setDone demoCfg "ghost" "r" demoInit).2 "ghost"
      = some ⟨"r", some 86400⟩ ∧
    storeGet (AsyncApiQueue.setDone demoCfg "ghost" "r" demoInit).2
      "QUEUE_COUNT" = some (natToString 0) ∧
    storeGet (AsyncApiQueue.setDone demoCfg "ghost" "r"
        (AsyncApiQueue.setDone demoCfg "ghost" "r" demoInit).2).2
      "QUEUE_COUNT" = some (natToString 0) := by
  exact c10_setDone_unconditional demoCfg demoInit "ghost" "r" 0
    (by decide) (by decide) (by decide)

/-- A concrete store for the C3 counterexample: counter `"1"` and a Done
slot `"a"` whose payload is the empty string. -/
def emptyPayloadStore : Store :=
  storeSet (storeSet emptyStore "QUEUE_COUNT" ⟨"1", some 86400⟩)
    "a" ⟨"", some 86400⟩

/-- C3 counterexample: on a Done slot whose payload is the empty string,
`removeRequest` deletes the key and returns 1 but ALSO decrements the
in-flight count (from `"1"` to `"0"`), although the claim says a Done
slot's removal leaves the count unchanged: `checkDone` returned the
payload `""`, which is falsy in JavaScript, so `!isDone` holds in the
`result == 1 && !isDone` guard. -/
theorem c3_empty_payload_done_slot_decrements :
    storeGet emptyPayloadStore "a" = some "" ∧
    ("" : String) ≠ "pending" ∧
    storeGet emptyPayloadStore "QUEUE_COUNT" = some "1" ∧
    (AsyncApiQueue.removeRequest demoCfg "a" emptyPayloadStore).1 = 1 ∧
    storeGet (AsyncApiQueue.removeRequest demoCfg "a" emptyPayloadStore).2
      "QUEUE_COUNT" = some "0" := by
  decide

/-- C3 amended: `removeRequest(id)` on an Absent slot returns 0 with no
store write and no counter change; on a Done slot with a NON-EMPTY
payload it deletes the key, returns 1, and leaves the counter alone; on a
Pending slot (stored value `"pending"`) it deletes the key, returns 1,
and decrements the counter (floored at zero).  The code decrements
exactly when the deletion succeeded and `checkDone`'s result was falsy —
`false` (Pending) or the empty string — so a Done slot with payload `""`
is also decremented (see the counterexample). -/
theorem c3_removeRequest_cases (cfg : Config) (s : Store) (id : String)
    (n : Nat) (_hid1 : id ≠ "QUEUE_SIZE") (hid2 : id ≠ "QUEUE_COUNT") :
    (storeGet s id = none →
      AsyncApiQueue.removeRequest cfg id s = (0, s)) ∧
    (∀ p, storeGet s id = some p → p ≠ "pending" → p ≠ "" →
      AsyncApiQueue.removeRequest cfg id s = (1, storeDel s id)) ∧
    (storeGet s id = some "pending" →
      storeGet s "QUEUE_COUNT" = some (natToString n) →
      AsyncApiQueue.removeRequest cfg id s =
        (1, storeSet (storeDel s id) "QUEUE_COUNT"
          ⟨natToString (n - 1), some cfg.expiration⟩)) := by
  refine ⟨fun h => ?_, fun p hp hpend hemp => ?_, fun hp hc => ?_⟩
  · rw [AsyncApiQueue.removeRequest]
    simp [AsyncApiQueue.checkDone, AsyncApiQueue.getRedis, h]
  · have hsome : (s id).isSome := by
      rcases hse : s id with _ | e
      · rw [storeGet, hse] at hp; simp at hp
      · rfl
    rw [AsyncApiQueue.removeRequest]
    simp only [AsyncApiQueue.checkDone, AsyncApiQueue.getRedis, hp, hpend,
      if_false, AsyncApiQueue.delRedis, hsome]
    simp [AsyncApiQueue.jsFalsyDone, hemp, hpend]
  · have hsome : (s id).isSome := by
      rcases hse : s id with _ | e
      · rw [storeGet, hse] at hp; simp at hp
      · rfl
    rw [AsyncApiQueue.removeRequest]
    simp only [AsyncApiQueue.checkDone, AsyncApiQueue.getRedis, hp,
      AsyncApiQueue.delRedis, hsome, if_true]
    rw [AsyncApiQueue.down1Count_spec cfg _ n
      (by rw [storeGet_del_ne _ _ _ (Ne.symm hid2)]; exact hc)]
    simp [AsyncApiQueue.jsFalsyDone]

/-- Witness for C3 amended: the three branches at concrete stores — the
empty store (Absent), a Done slot `"b"` with payload `"r"`, and the
Pending slot `"a"` of a reserved request. -/
theorem c3_witness :
    AsyncApiQueue.removeRequest demoCfg "a" emptyStore = (0, emptyStore) ∧
    AsyncApiQueue.removeRequest demoCfg "b"
        (storeSet demoInit "b" ⟨"r", some 86400⟩)
      = (1, storeDel (storeSet demoInit "b" ⟨"r", some 86400⟩) "b") ∧
    AsyncApiQueue.removeRequest demoCfg "a"
        (storeSet demoInit "a" ⟨"pending", some 86400⟩)
      = (1, storeSet
          (storeDel (storeSet demoInit "a" ⟨"pending", some 86400⟩) "a")
          "QUEUE_COUNT" ⟨natToString 0, some 86400⟩) := by
  have h1 := c3_removeRequest_cases demoCfg emptyStore "a" 0
    (by decide) (by decide)
  have h2 := c3_removeRequest_cases demoCfg
    (storeSet demoInit "b" ⟨"r", some 86400⟩) "b" 0 (by decide) (by decide)
  have h3 := c3_removeRequest_cases demoCfg
    (storeSet demoInit "a" ⟨"pending", some 86400⟩) "a" 0
    (by decide) (by decide)
  exact ⟨h1.1 (by decide), h2.2.1 "r" (by decide) (by decide) (by decide),
    h3.2.2 (by decide) (by decide)⟩

namespace AsyncApiQueue

/-- A request id that is not one of the two reserved counter keys. -/
def SlotId (id : String) : Prop := id ≠ "QUEUE_SIZE" ∧ id ≠ "QUEUE_COUNT"

instance (id : String) : Decidable (SlotId id) := by
  unfold SlotId; infer_instance

/-- The public operations of the class. -/
inductive Op where
  | add
  | setReq (id : String)
  | check (id : String)
  | done (id : String) (response : String)
  | remove (id : String)
  | size
  | count
deriving DecidableEq, Repr

/-- The store effect of one public operation. -/
def applyOp (cfg : Config) : Op → Store → Store
  | .add, s => (addRequest cfg s).2
  | .setReq id, s => (setRequest cfg id s).2
  | .check _, s => s
  | .done id r, s => (setDone cfg id r s).2
  | .remove id, s => (removeRequest cfg id s).2
  | .size, s => (getSize cfg s).2
  | .count, s => (getCount cfg s).2

/-- An operation whose id argument (if any) is a request id, not a
reserved counter key. -/
def GoodOp : Op → Prop
  | .setReq id => SlotId id
  | .done id _ => SlotId id
  | .remove id => SlotId id
  | .check id => SlotId id
  | _ => True

instance (op : Op) : Decidable (GoodOp op) := by
  unfold GoodOp; cases op <;> infer_instance

/-- The stores reachable from an initialized store by the public
operations (on request ids). -/
inductive Reachable (cfg : Config) : Store → Prop where
  | init (s : Store) : Reachable cfg (initializeRedis cfg s)
  | step (s : Store) (op : Op) (h : Reachable cfg s) (hop : GoodOp op) :
      Reachable cfg (applyOp cfg op s)

/-- The C4 invariant: the persisted in-flight counter holds the decimal
string of a natural number (in particular it is present and represents a
nonnegative integer). -/
def CountNat (s : Store) : Prop :=
  ∃ n : Nat, storeGet s "QUEUE_COUNT" = some (natToString n)

theorem countNat_initializeRedis (cfg : Config) (s : Store) :
    CountNat (initializeRedis cfg s) := by
  refine ⟨0, ?_⟩
  rw [storeGet_eq_entry_value, initializeRedis_entry_count, natToString_zero]
  rfl

theorem countNat_up1Count (cfg : Config) (s : Store) (h : CountNat s) :
    CountNat (up1Count cfg s).2 := by
  obtain ⟨n, hn⟩ := h
  rw [up1Count_spec cfg s n hn]
  exact ⟨n + 1, by rw [storeGet_set_same]⟩

theorem countNat_down1Count (cfg : Config) (s : Store) (h : CountNat s) :
    CountNat (down1Count cfg s).2 := by
  obtain ⟨n, hn⟩ := h
  rw [down1Count_spec cfg s n hn]
  exact ⟨n - 1, by rw [storeGet_set_same]⟩

theorem countNat_getCount (cfg : Config) (s : Store) (h : CountNat s) :
    CountNat (getCount cfg s).2 := by
  obtain ⟨n, hn⟩ := h
  rw [getCount_present cfg s _ hn]
  exact ⟨n, hn⟩

theorem countNat_getSize (cfg : Config) (s : Store) (h : CountNat s) :
    CountNat (getSize cfg s).2 := by
  cases hz : storeGet s "QUEUE_SIZE" with
  | none =>
    simp only [getSize, getRedis, hz]
    exact countNat_initializeRedis cfg s
  | some z =>
    rw [getSize_present cfg s z hz]
    exact h

theorem countNat_isFullQueue (cfg : Config) (s : Store) (h : CountNat s) :
    CountNat (isFullQueue cfg s).2 := by
  rw [isFullQueue]
  exact countNat_getSize cfg _ (countNat_getCount cfg s h)

theorem countNat_addRequest (cfg : Config) (s : Store) (h : CountNat s) :
    CountNat (addRequest cfg s).2 := by
  rw [addRequest]
  by_cases hb : (isFullQueue cfg s).1
  · simpa [hb] using countNat_isFullQueue cfg s h
  · simp only [hb, Bool.false_eq_true, if_false]
    exact countNat_up1Count cfg _ (countNat_isFullQueue cfg s h)

theorem countNat_storeSet_slot (s : Store) (id : String) (e : Entry)
    (hid : id ≠ "QUEUE_COUNT") (h : CountNat s) :
    CountNat (storeSet s id e) := by
  obtain ⟨n, hn⟩ := h
  exact ⟨n, by rw [storeGet_set_ne _ _ _ _ (Ne.symm hid)]; exact hn⟩

theorem countNat_storeDel_slot (s : Store) (id : String)
    (hid : id ≠ "QUEUE_COUNT") (h : CountNat s) :
    CountNat (storeDel s id) := by
  obtain ⟨n, hn⟩ := h
  exact ⟨n, by rw [storeGet_del_ne _ _ _ (Ne.symm hid)]; exact hn⟩

theorem countNat_setDone (cfg : Config) (s : Store) (id r : String)
    (hid : id ≠ "QUEUE_COUNT") (h : CountNat s) :
    CountNat (setDone cfg id r s).2 := by
  rw [setDone]
  simp only [setRedis]
  exact countNat_down1Count cfg _ (countNat_storeSet_slot s id _ hid h)

theorem countNat_removeRequest (cfg : Config) (s : Store) (id : String)
    (hid : id ≠ "QUEUE_COUNT") (h : CountNat s) :
    CountNat (removeRequest cfg id s).2 := by
  rw [removeRequest]
  by_cases hnull : checkDone id s = .nullv
  · simpa [hnull] using h
  · simp only [hnull, if_false]
    have hdel : CountNat (delRedis s id).2 := by
      rw [delRedis]
      by_cases hsome : (s id).isSome
      · simpa [hsome] using countNat_storeDel_slot s id hid h
      · simpa [hsome] using h
    by_cases hguard : (delRedis s id).1 = 1
      && jsFalsyDone (checkDone id s)
    · simp only [hguard, if_true]
      exact countNat_down1Count cfg _ hdel
    · simp only [hguard, Bool.false_eq_true, if_false]
      exact hdel

end AsyncApiQueue

/-- C4: in every state reachable from an initialized store by any
sequence of the public operations (on request ids), the persisted
in-flight counter is the decimal string of a natural number — so
`0 ≤ inFlight` always holds: `up1Count` maps the string of `n` to the
string of `n + 1`, and `down1Count` floors at zero, even when `setDone`
or `removeRequest` decrement from a count of 0. -/
theorem c4_inflight_count_never_negative (cfg : Config) (s : Store)
    (h : AsyncApiQueue.Reachable cfg s) :
    ∃ n : Nat, storeGet s "QUEUE_COUNT" = some (natToString n) := by
  induction h with
  | init s0 => exact AsyncApiQueue.countNat_initializeRedis cfg s0
  | step s0 op h0 hop ih =>
    cases op with
    | add => exact AsyncApiQueue.countNat_addRequest cfg s0 ih
    | setReq id =>
      exact AsyncApiQueue.countNat_storeSet_slot s0 id _ hop.2 ih
    | check id => exact ih
    | done id r => exact AsyncApiQueue.countNat_setDone cfg s0 id r hop.2 ih
    | remove id =>
      exact AsyncApiQueue.countNat_removeRequest cfg s0 id hop.2 ih
    | size => exact AsyncApiQueue.countNat_getSize cfg s0 ih
    | count => exact AsyncApiQueue.countNat_getCount cfg s0 ih

/-- Witness for C4: the state reached by `setDone` (a decrement from
count 0) after initialization still carries a natural-number counter. -/
theorem c4_witness :
    ∃ n : Nat,
      storeGet (AsyncApiQueue.applyOp demoCfg (.done "a" "r") demoInit)
        "QUEUE_COUNT" = some (natToString n) := by
  exact c4_inflight_count_never_negative demoCfg _
    (AsyncApiQueue.Reachable.step demoInit (.done "a" "r")
      (AsyncApiQueue.Reachable.init emptyStore) (by decide))

/-!
C6: behavioural comparison of the two duplicated modules.  `ValEq` relates
two stores that agree on every key's presence and value, allowing the
attached expiries to differ — the modules turn out equivalent exactly up
to that relation.
-/

/-- Two stores with the same keys and values, the expiry attached to each
key left free. -/
def ValEq (s1 s2 : Store) : Prop :=
  ∀ k, (s1 k).map Entry.value = (s2 k).map Entry.value

theorem ValEq.storeGet_eq {s1 s2 : Store} (h : ValEq s1 s2) (k : String) :
    storeGet s1 k = storeGet s2 k := h k

theorem ValEq.isSome_eq {s1 s2 : Store} (h : ValEq s1 s2) (k : String) :
    (s1 k).isSome = (s2 k).isSome := by
  have hk := h k
  cases h1 : s1 k <;> cases h2 : s2 k <;> rw [h1, h2] at hk <;> simp_all

theorem ValEq.set {s1 s2 : Store} (h : ValEq s1 s2) (k v : String)
    (t1 t2 : Option Nat) :
    ValEq (storeSet s1 k ⟨v, t1⟩) (storeSet s2 k ⟨v, t2⟩) := by
  intro k'
  by_cases hk : k' = k <;> simp [storeSet, hk, h k']

theorem ValEq.del {s1 s2 : Store} (h : ValEq s1 s2) (k : String) :
    ValEq (storeDel s1 k) (storeDel s2 k) := by
  intro k'
  by_cases hk : k' = k <;> simp [storeDel, hk, h k']

theorem valEq_initializeRedis (cfg : Config) {s1 s2 : Store}
    (h : ValEq s1 s2) :
    ValEq (AsyncApiQueue.initializeRedis cfg s1)
      (Part000.initializeRedis cfg s2) := by
  simp only [AsyncApiQueue.initializeRedis, Part000.initializeRedis,
    AsyncApiQueue.setSize, AsyncApiQueue.setCount, AsyncApiQueue.setRedis,
    Part000.setSize, Part000.setCount, Part000.setRedis]
  exact (h.set _ _ _ _).set _ _ _ _

theorem sim_getCount (cfg : Config) {s1 s2 : Store} (h : ValEq s1 s2) :
    (AsyncApiQueue.getCount cfg s1).1 = (Part000.getCount cfg s2).1 ∧
    ValEq (AsyncApiQueue.getCount cfg s1).2 (Part000.getCount cfg s2).2 := by
  have hg := h.storeGet_eq "QUEUE_COUNT"
  cases hc : storeGet s2 "QUEUE_COUNT" with
  | none =>
    rw [hc] at hg
    simp only [AsyncApiQueue.getCount, Part000.getCount,
      AsyncApiQueue.getRedis, Part000.getRedis, hg, hc]
    exact ⟨by trivial, valEq_initializeRedis cfg h⟩
  | some v =>
    rw [hc] at hg
    simp only [AsyncApiQueue.getCount, Part000.getCount,
      AsyncApiQueue.getRedis, Part000.getRedis, hg, hc]
    exact ⟨by trivial, h⟩

theorem sim_getSize (cfg : Config) {s1 s2 : Store} (h : ValEq s1 s2) :
    (AsyncApiQueue.getSize cfg s1).1 = (Part000.getSize cfg s2).1 ∧
    ValEq (AsyncApiQueue.getSize cfg s1).2 (Part000.getSize cfg s2).2 := by
  have hg := h.storeGet_eq "QUEUE_SIZE"
  cases hc : storeGet s2 "QUEUE_SIZE" with
  | none =>
    rw [hc] at hg
    simp only [AsyncApiQueue.getSize, Part000.getSize,
      AsyncApiQueue.getRedis, Part000.getRedis, hg, hc]
    exact ⟨by trivial, valEq_initializeRedis cfg h⟩
  | some v =>
    rw [hc] at hg
    simp only [AsyncApiQueue.getSize, Part000.getSize,
      AsyncApiQueue.getRedis, Part000.getRedis, hg, hc]
    exact ⟨by trivial, h⟩

theorem sim_up1Count (cfg : Config) {s1 s2 : Store} (h : ValEq s1 s2) :
    (AsyncApiQueue.up1Count cfg s1).1 = (Part000.up1Count cfg s2).1 ∧
    ValEq (AsyncApiQueue.up1Count cfg s1).2 (Part000.up1Count cfg s2).2 := by
  obtain ⟨hr, hs⟩ := sim_getCount cfg h
  simp only [AsyncApiQueue.up1Count, Part000.up1Count,
    AsyncApiQueue.setCount, Part000.setCount, AsyncApiQueue.setRedis,
    Part000.setRedis]
  rw [hr]
  exact ⟨by trivial, hs.set _ _ _ _⟩

theorem sim_down1Count (cfg : Config) {s1 s2 : Store} (h : ValEq s1 s2) :
    (AsyncApiQueue.down1Count cfg s1).1 = (Part000.down1Count cfg s2).1 ∧
    ValEq (AsyncApiQueue.down1Count cfg s1).2
      (Part000.down1Count cfg s2).2 := by
  obtain ⟨hr, hs⟩ := sim_getCount cfg h
  simp only [AsyncApiQueue.down1Count, Part000.down1Count,
    AsyncApiQueue.setCount, Part000.setCount, AsyncApiQueue.setRedis,
    Part000.setRedis]
  rw [hr]
  exact ⟨by trivial, hs.set _ _ _ _⟩

theorem sim_isFullQueue (cfg : Config) {s1 s2 : Store} (h : ValEq s1 s2) :
    (AsyncApiQueue.isFullQueue cfg s1).1 = (Part000.isFullQueue cfg s2).1 ∧
    ValEq (AsyncApiQueue.isFullQueue cfg s1).2
      (Part000.isFullQueue cfg s2).2 := by
  obtain ⟨hc1, hc2⟩ := sim_getCount cfg h
  obtain ⟨hz1, hz2⟩ := sim_getSize cfg hc2
  simp only [AsyncApiQueue.isFullQueue, Part000.isFullQueue]
  rw [hc1, hz1]
  exact ⟨by trivial, hz2⟩

theorem sim_checkDone (id : String) {s1 s2 : Store} (h : ValEq s1 s2) :
    AsyncApiQueue.checkDone id s1 = Part000.checkDone id s2 := by
  simp only [AsyncApiQueue.checkDone, Part000.checkDone,
    AsyncApiQueue.getRedis, Part000.getRedis, h.storeGet_eq id]

theorem sim_delRedis (k : String) {s1 s2 : Store} (h : ValEq s1 s2) :
    (AsyncApiQueue.delRedis s1 k).1 = (Part000.delRedis s2 k).1 ∧
    ValEq (AsyncApiQueue.delRedis s1 k).2 (Part000.delRedis s2 k).2 := by
  simp only [AsyncApiQueue.delRedis, Part000.delRedis, h.isSome_eq k]
  by_cases hs : (s2 k).isSome
  · simp only [hs, if_true]
    exact ⟨by trivial, h.del k⟩
  · simp only [hs, Bool.false_eq_true, if_false]
    exact ⟨by trivial, h⟩

/-- The observable result of one public operation (a rejected promise, a
resolved string, a getter value, a deletion count, or a status). -/
inductive OpRes where
  | excR (e : String)
  | strR (v : String)
  | valR (v : JsVal)
  | numR (n : Nat)
  | doneR (d : AsyncApiQueue.DoneRes)
deriving DecidableEq, Repr

/-- One public operation of the lib module, with its observable result. -/
def runLib (cfg : Config) : AsyncApiQueue.Op → Store → OpRes × Store
  | .add, s =>
      let rs := AsyncApiQueue.addRequest cfg s
      (match rs.1 with
       | .ok v => .strR v
       | .error e => .excR e, rs.2)
  | .setReq id, s =>
      let rs := AsyncApiQueue.setRequest cfg id s
      (.strR rs.1, rs.2)
  | .check id, s => (.doneR (AsyncApiQueue.checkDone id s), s)
  | .done id r, s =>
      let rs := AsyncApiQueue.setDone cfg id r s
      (.strR rs.1, rs.2)
  | .remove id, s =>
      let rs := AsyncApiQueue.removeRequest cfg id s
      (.numR rs.1, rs.2)
  | .size, s =>
      let rs := AsyncApiQueue.getSize cfg s
      (.valR rs.1, rs.2)
  | .count, s =>
      let rs := AsyncApiQueue.getCount cfg s
      (.valR rs.1, rs.2)

/-- One public operation of the `part_000` module. -/
def runPart (cfg : Config) : AsyncApiQueue.Op → Store → OpRes × Store
  | .add, s =>
      let rs := Part000.addRequest cfg s
      (match rs.1 with
       | .ok v => .strR v
       | .error e => .excR e, rs.2)
  | .setReq id, s =>
      let rs := Part000.setRequest cfg id s
      (.strR rs.1, rs.2)
  | .check id, s => (.doneR (Part000.checkDone id s), s)
  | .done id r, s =>
      let rs := Part000.setDone cfg id r s
      (.strR rs.1, rs.2)
  | .remove id, s =>
      let rs := Part000.removeRequest cfg id s
      (.numR rs.1, rs.2)
  | .size, s =>
      let rs := Part000.getSize cfg s
      (.valR rs.1, rs.2)
  | .count, s =>
      let rs := Part000.getCount cfg s
      (.valR rs.1, rs.2)

theorem sim_run (cfg : Config) (op : AsyncApiQueue.Op) {s1 s2 : Store}
    (h : ValEq s1 s2) :
    (runLib cfg op s1).1 = (runPart cfg op s2).1 ∧
    ValEq (runLib cfg op s1).2 (runPart cfg op s2).2 := by
  cases op with
  | add =>
    obtain ⟨hf1, hf2⟩ := sim_isFullQueue cfg h
    simp only [runLib, runPart, AsyncApiQueue.addRequest, Part000.addRequest]
    rw [hf1]
    by_cases hb : (Part000.isFullQueue cfg s2).1
    · simp only [hb, if_true]
      exact ⟨by trivial, hf2⟩
    · simp only [hb, Bool.false_eq_true, if_false]
      obtain ⟨hu1, hu2⟩ := sim_up1Count cfg hf2
      rw [hu1]
      exact ⟨by trivial, hu2⟩
  | setReq id =>
    simp only [runLib, runPart, AsyncApiQueue.setRequest, Part000.setRequest,
      AsyncApiQueue.setRedis, Part000.setRedis]
    exact ⟨by trivial, h.set _ _ _ _⟩
  | check id =>
    simp only [runLib, runPart, sim_checkDone id h]
    exact ⟨by trivial, h⟩
  | done id r =>
    simp only [runLib, runPart, AsyncApiQueue.setDone, Part000.setDone,
      AsyncApiQueue.setRedis, Part000.setRedis]
    obtain ⟨hd1, hd2⟩ := sim_down1Count cfg (h.set id (jsToString (.str r))
      (some cfg.expiration) none)
    exact ⟨by trivial, hd2⟩
  | remove id =>
    simp only [runLib, runPart, AsyncApiQueue.removeRequest,
      Part000.removeRequest]
    rw [sim_checkDone id h]
    by_cases hnull : Part000.checkDone id s2 = .nullv
    · simp only [hnull, if_true]
      exact ⟨by trivial, h⟩
    · simp only [hnull, if_false]
      obtain ⟨hd1, hd2⟩ := sim_delRedis id h
      rw [hd1]
      by_cases hguard : (Part000.delRedis s2 id).1 = 1
        && AsyncApiQueue.jsFalsyDone (Part000.checkDone id s2)
      · simp only [hguard, if_true]
        obtain ⟨hw1, hw2⟩ := sim_down1Count cfg hd2
        exact ⟨by trivial, hw2⟩
      · simp only [hguard, Bool.false_eq_true, if_false]
        exact ⟨congrArg OpRes.numR hd1, hd2⟩
  | size =>
    obtain ⟨hz1, hz2⟩ := sim_getSize cfg h
    simp only [runLib, runPart]
    rw [hz1]
    exact ⟨by trivial, hz2⟩
  | count =>
    obtain ⟨hc1, hc2⟩ := sim_getCount cfg h
    simp only [runLib, runPart]
    rw [hc1]
    exact ⟨by trivial, hc2⟩

/-- A sequence of public operations of the lib module, collecting the
observable results. -/
def runSeqLib (cfg : Config) : List AsyncApiQueue.Op → Store →
    List OpRes × Store
  | [], s => ([], s)
  | op :: ops, s =>
      let rs := runLib cfg op s
      let rest := runSeqLib cfg ops rs.2
      (rs.1 :: rest.1, rest.2)

/-- A sequence of public operations of the `part_000` module. -/
def runSeqPart (cfg : Config) : List AsyncApiQueue.Op → Store →
    List OpRes × Store
  | [], s => ([], s)
  | op :: ops, s =>
      let rs := runPart cfg op s
      let rest := runSeqPart cfg ops rs.2
      (rs.1 :: rest.1, rest.2)

theorem sim_runSeq (cfg : Config) (ops : List AsyncApiQueue.Op) :
    ∀ s1 s2, ValEq s1 s2 →
      (runSeqLib cfg ops s1).1 = (runSeqPart cfg ops s2).1 ∧
      ValEq (runSeqLib cfg ops s1).2 (runSeqPart cfg ops s2).2 := by
  induction ops with
  | nil => exact fun s1 s2 h => ⟨rfl, h⟩
  | cons op ops ih =>
    intro s1 s2 h
    obtain ⟨h1, h2⟩ := sim_run cfg op h
    obtain ⟨h3, h4⟩ := ih _ _ h2
    simp only [runSeqLib, runSeqPart]
    rw [h1, h3]
    exact ⟨rfl, h4⟩

/-- C6 counterexample: the two modules are NOT equivalent on the persisted
store state including expiry: already the initialization writes differ —
after each module's `initializeRedis` on the empty store, the lib module's
`QUEUE_COUNT` entry carries the 86400-second expiry and the `part_000`
module's carries none; the first slot write differs the same way. -/
theorem c6_stores_differ_in_ttl :
    storeEntry (AsyncApiQueue.initializeRedis demoCfg emptyStore)
        "QUEUE_COUNT"
      ≠ storeEntry (Part000.initializeRedis demoCfg emptyStore)
        "QUEUE_COUNT" ∧
    storeEntry (runLib demoCfg (.setReq "a")
        (AsyncApiQueue.initializeRedis demoCfg emptyStore)).2 "a"
      ≠ storeEntry (runPart demoCfg (.setReq "a")
        (Part000.initializeRedis demoCfg emptyStore)).2 "a" := by
  decide

/-- C6 amended: for every configuration and every sequence of public
operations (`addRequest`, `setRequest`, `checkDone`, `setDone`,
`removeRequest`, `getSize`, `getCount`) run from each module's own
initialization, the two modules produce identical results and stores
identical in every key's presence and value; they differ only in the
expiry attached to writes (the lib module attaches `ttlSeconds`, the
`part_000` module attaches none — see the counterexample). -/
theorem c6_modules_value_equivalent (cfg : Config)
    (ops : List AsyncApiQueue.Op) :
    (runSeqLib cfg ops (AsyncApiQueue.initializeRedis cfg emptyStore)).1
      = (runSeqPart cfg ops (Part000.initializeRedis cfg emptyStore)).1 ∧
    ValEq (runSeqLib cfg ops
        (AsyncApiQueue.initializeRedis cfg emptyStore)).2
      (runSeqPart cfg ops (Part000.initializeRedis cfg emptyStore)).2 := by
  exact sim_runSeq cfg ops _ _
    (valEq_initializeRedis cfg (fun k => rfl))

namespace Faulty

/-!
C7: the error-propagation behaviour of the lib module.  Every Redis round
trip (`client.set`/`get`/`del` inside `setRedis`/`getRedis`/`delRedis`)
either succeeds or rejects; the wrappers `await` the result, catch a
rejection and re-reject with the caught error unchanged.  The model
threads a fault schedule `fl : Nat → Option ε`: the `i`-th store round
trip of a computation fails with `fl i = some e` (rejecting with `e`
itself) and succeeds when `fl i = none`.  The only other rejection in the
module is `addRequest`'s queue-full string, modelled as `QErr.full`.
-/

/-- What a public operation can reject with: the queue-full rejection or
a store error surfaced unchanged. -/
inductive QErr (ε : Type) where
  | full
  | store (e : ε)
deriving DecidableEq

/-- A store computation: from a store and the index of the next store
round trip, an `Except` result, the new store, and the next index. -/
def MF (ε α : Type) := Store → Nat → Except (QErr ε) α × Store × Nat

/-- `Promise.resolve`. -/
def pureF {ε α : Type} (a : α) : MF ε α := fun s i => (.ok a, s, i)

/-- `await`/`then`: a rejection short-circuits, resolving continues. -/
def bindF {ε α β : Type} (m : MF ε α) (f : α → MF ε β) : MF ε β :=
  fun s i =>
    match m s i with
    | (.ok a, s1, i1) => f a s1 i1
    | (.error q, s1, i1) => (.error q, s1, i1)

/-- `getRedis(key)` under the fault schedule. -/
def getRedisF {ε : Type} (fl : Nat → Option ε) (key : String) :
    MF ε (Option String) := fun s i =>
  match fl i with
  | some e => (.error (.store e), s, i + 1)
  | none => (.ok (storeGet s key), s, i + 1)

/-- `setRedis(key, value)` under the fault schedule. -/
def setRedisF {ε : Type} (fl : Nat → Option ε) (cfg : Config)
    (key : String) (value : JsVal) : MF ε String := fun s i =>
  match fl i with
  | some e => (.error (.store e), s, i + 1)
  | none =>
      (.ok "OK", storeSet s key ⟨jsToString value, some cfg.expiration⟩,
        i + 1)

/-- `delRedis(key)` under the fault schedule. -/
def delRedisF {ε : Type} (fl : Nat → Option ε) (key : String) :
    MF ε Nat := fun s i =>
  match fl i with
  | some e => (.error (.store e), s, i + 1)
  | none =>
      if (s key).isSome then (.ok 1, storeDel s key, i + 1)
      else (.ok 0, s, i + 1)

/-- `setSize(value)`. -/
def setSizeF {ε : Type} (fl : Nat → Option ε) (cfg : Config)
    (value : JsVal) : MF ε String :=
  setRedisF fl cfg "QUEUE_SIZE" value

/-- `setCount(value)`. -/
def setCountF {ε : Type} (fl : Nat → Option ε) (cfg : Config)
    (value : JsVal) : MF ε String :=
  setRedisF fl cfg "QUEUE_COUNT" value

/-- `initializeRedis()` (`setCount(0)` then `setSize(size)`). -/
def initializeRedisF {ε : Type} (fl : Nat → Option ε) (cfg : Config) :
    MF ε String :=
  bindF (setCountF fl cfg (.num (.int 0))) fun _ =>
    setSizeF fl cfg (.num (.int cfg.size))

/-- `getSize()`. -/
def getSizeF {ε : Type} (fl : Nat → Option ε) (cfg : Config) :
    MF ε JsVal :=
  bindF (getRedisF fl "QUEUE_SIZE") fun r =>
    match r with
    | none => bindF (initializeRedisF fl cfg) fun _ =>
        pureF (.num (.int cfg.size))
    | some v => pureF (.str v)

/-- `getCount()`. -/
def getCountF {ε : Type} (fl : Nat → Option ε) (cfg : Config) :
    MF ε JsVal :=
  bindF (getRedisF fl "QUEUE_COUNT") fun r =>
    match r with
    | none => bindF (initializeRedisF fl cfg) fun _ =>
        pureF (.num (.int 0))
    | some v => pureF (.str v)

/-- `up1Count()`. -/
def up1CountF {ε : Type} (fl : Nat → Option ε) (cfg : Config) :
    MF ε String :=
  bindF (getCountF fl cfg) fun c => setCountF fl cfg (jsInc c)

/-- `down1Count()`. -/
def down1CountF {ε : Type} (fl : Nat → Option ε) (cfg : Config) :
    MF ε String :=
  bindF (getCountF fl cfg) fun c =>
    setCountF fl cfg (if jsGtZero c then jsDec c else .num (.int 0))

/-- `isFullQueue()`. -/
def isFullQueueF {ε : Type} (fl : Nat → Option ε) (cfg : Config) :
    MF ε Bool :=
  bindF (getCountF fl cfg) fun c =>
    bindF (getSizeF fl cfg) fun z => pureF (jsGE c z)

/-- `setRequest(key)`. -/
def setRequestF {ε : Type} (fl : Nat → Option ε) (cfg : Config)
    (key : String) : MF ε String :=
  setRedisF fl cfg key (.str "pending")

/-- The queue-full rejection of `addRequest`. -/
def fullRejectF {ε α : Type} : MF ε α := fun s i => (.error .full, s, i)

/-- `addRequest()`. -/
def addRequestF {ε : Type} (fl : Nat → Option ε) (cfg : Config) :
    MF ε String :=
  bindF (isFullQueueF fl cfg) fun full =>
    if full then fullRejectF else up1CountF fl cfg

/-- `checkDone(id)`. -/
def checkDoneF {ε : Type} (fl : Nat → Option ε) (id : String) :
    MF ε AsyncApiQueue.DoneRes :=
  bindF (getRedisF fl id) fun r =>
    pureF (match r with
      | none => .nullv
      | some v => if v = "pending" then .falsev else .strv v)

/-- `removeRequest(id)`. -/
def removeRequestF {ε : Type} (fl : Nat → Option ε) (cfg : Config)
    (id : String) : MF ε Nat :=
  bindF (checkDoneF fl id) fun isDone =>
    if isDone = .nullv then pureF 0
    else
      bindF (delRedisF fl id) fun result =>
        if result = 1 && AsyncApiQueue.jsFalsyDone isDone then
          bindF (down1CountF fl cfg) fun _ => pureF result
        else pureF result

/-- `setDone(id, response)`. -/
def setDoneF {ε : Type} (fl : Nat → Option ε) (cfg : Config)
    (id response : String) : MF ε String :=
  bindF (setRedisF fl cfg id (.str response)) fun result =>
    bindF (down1CountF fl cfg) fun _ => pureF result

/-- One public operation under the fault schedule, its result wrapped
uniformly. -/
def runF {ε : Type} (fl : Nat → Option ε) (cfg : Config) :
    AsyncApiQueue.Op → MF ε OpRes
  | .add => bindF (addRequestF fl cfg) fun v => pureF (.strR v)
  | .setReq id => bindF (setRequestF fl cfg id) fun v => pureF (.strR v)
  | .check id => bindF (checkDoneF fl id) fun d => pureF (.doneR d)
  | .done id r => bindF (setDoneF fl cfg id r) fun v => pureF (.strR v)
  | .remove id => bindF (removeRequestF fl cfg id) fun n => pureF (.numR n)
  | .size => bindF (getSizeF fl cfg) fun v => pureF (.valR v)
  | .count => bindF (getCountF fl cfg) fun v => pureF (.valR v)

end Faulty

namespace Faulty

/-- Every rejection of the computation is a store fault taken unchanged
from the schedule (no queue-full rejection), and the round-trip index
never decreases. -/
def SOnly {ε α : Type} (fl : Nat → Option ε) (m : MF ε α) : Prop :=
  ∀ s i, i ≤ (m s i).2.2 ∧
    ∀ q, (m s i).1 = .error q →
      ∃ e j, q = .store e ∧ i ≤ j ∧ j < (m s i).2.2 ∧ fl j = some e

/-- Every rejection is the queue-full rejection or a store fault taken
unchanged from the schedule. -/
def SFull {ε α : Type} (fl : Nat → Option ε) (m : MF ε α) : Prop :=
  ∀ s i, i ≤ (m s i).2.2 ∧
    ∀ q, (m s i).1 = .error q →
      q = .full ∨
      ∃ e j, q = .store e ∧ i ≤ j ∧ j < (m s i).2.2 ∧ fl j = some e

theorem SOnly.toSFull {ε α : Type} {fl : Nat → Option ε} {m : MF ε α}
    (h : SOnly fl m) : SFull fl m := by
  intro s i
  obtain ⟨h1, h2⟩ := h s i
  exact ⟨h1, fun q hq => .inr (h2 q hq)⟩

theorem sonly_pure {ε α : Type} (fl : Nat → Option ε) (a : α) :
    SOnly fl (pureF a) :=
  fun _ i => ⟨le_refl i, fun _ hq => Except.noConfusion hq⟩

theorem sfull_fullRejectF {ε α : Type} (fl : Nat → Option ε) :
    SFull fl (fullRejectF (α := α)) := by
  intro s i
  refine ⟨le_refl i, fun q hq => .inl ?_⟩
  injection hq with h
  exact h.symm

theorem sonly_bind {ε α β : Type} {fl : Nat → Option ε} {m : MF ε α}
    {f : α → MF ε β} (hm : SOnly fl m) (hf : ∀ a, SOnly fl (f a)) :
    SOnly fl (bindF m f) := by
  intro s i
  obtain ⟨h1, h2⟩ := hm s i
  rcases hres : m s i with ⟨r1, s1, i1⟩
  rw [hres] at h1 h2
  simp only at h1 h2
  cases r1 with
  | ok a =>
    obtain ⟨h3, h4⟩ := hf a s1 i1
    have hb : bindF m f s i = f a s1 i1 := by simp [bindF, hres]
    rw [hb]
    refine ⟨le_trans h1 h3, fun q hq => ?_⟩
    obtain ⟨e, j, hqe, hij, hjlt, hflj⟩ := h4 q hq
    exact ⟨e, j, hqe, le_trans h1 hij, hjlt, hflj⟩
  | error q1 =>
    have hb : bindF m f s i = (.error q1, s1, i1) := by simp [bindF, hres]
    rw [hb]
    refine ⟨h1, fun q hq => ?_⟩
    injection hq with h
    subst h
    exact h2 q1 rfl

theorem sfull_bind {ε α β : Type} {fl : Nat → Option ε} {m : MF ε α}
    {f : α → MF ε β} (hm : SFull fl m) (hf : ∀ a, SFull fl (f a)) :
    SFull fl (bindF m f) := by
  intro s i
  obtain ⟨h1, h2⟩ := hm s i
  rcases hres : m s i with ⟨r1, s1, i1⟩
  rw [hres] at h1 h2
  simp only at h1 h2
  cases r1 with
  | ok a =>
    obtain ⟨h3, h4⟩ := hf a s1 i1
    have hb : bindF m f s i = f a s1 i1 := by simp [bindF, hres]
    rw [hb]
    refine ⟨le_trans h1 h3, fun q hq => ?_⟩
    rcases h4 q hq with hq0 | ⟨e, j, hqe, hij, hjlt, hflj⟩
    · exact .inl hq0
    · exact .inr ⟨e, j, hqe, le_trans h1 hij, hjlt, hflj⟩
  | error q1 =>
    have hb : bindF m f s i = (.error q1, s1, i1) := by simp [bindF, hres]
    rw [hb]
    refine ⟨h1, fun q hq => ?_⟩
    injection hq with h
    subst h
    exact h2 q1 rfl

theorem sonly_getRedisF {ε : Type} (fl : Nat → Option ε) (key : String) :
    SOnly fl (getRedisF fl key) := by
  intro s i
  cases hfl : fl i with
  | some e =>
    have hb : getRedisF fl key s i = (.error (.store e), s, i + 1) := by
      simp [getRedisF, hfl]
    rw [hb]
    refine ⟨by simp, fun q hq => ?_⟩
    injection hq with h
    exact ⟨e, i, h.symm, le_refl i, by simp, hfl⟩
  | none =>
    have hb : getRedisF fl key s i = (.ok (storeGet s key), s, i + 1) := by
      simp [getRedisF, hfl]
    rw [hb]
    exact ⟨by simp, fun q hq => Except.noConfusion hq⟩

theorem sonly_setRedisF {ε : Type} (fl : Nat → Option ε) (cfg : Config)
    (key : String) (value : JsVal) :
    SOnly fl (setRedisF fl cfg key value) := by
  intro s i
  cases hfl : fl i with
  | some e =>
    have hb : setRedisF fl cfg key value s i
        = (.error (.store e), s, i + 1) := by
      simp [setRedisF, hfl]
    rw [hb]
    refine ⟨by simp, fun q hq => ?_⟩
    injection hq with h
    exact ⟨e, i, h.symm, le_refl i, by simp, hfl⟩
  | none =>
    have hb : setRedisF fl cfg key value s i
        = (.ok "OK",
            storeSet s key ⟨jsToString value, some cfg.expiration⟩,
            i + 1) := by
      simp [setRedisF, hfl]
    rw [hb]
    exact ⟨by simp, fun q hq => Except.noConfusion hq⟩

theorem sonly_delRedisF {ε : Type} (fl : Nat → Option ε) (key : String) :
    SOnly fl (delRedisF fl key) := by
  intro s i
  cases hfl : fl i with
  | some e =>
    have hb : delRedisF fl key s i = (.error (.store e), s, i + 1) := by
      simp [delRedisF, hfl]
    rw [hb]
    refine ⟨by simp, fun q hq => ?_⟩
    injection hq with h
    exact ⟨e, i, h.symm, le_refl i, by simp, hfl⟩
  | none =>
    by_cases hsome : (s key).isSome
    · have hb : delRedisF fl key s i = (.ok 1, storeDel s key, i + 1) := by
        simp [delRedisF, hfl, hsome]
      rw [hb]
      exact ⟨by simp, fun q hq => Except.noConfusion hq⟩
    · have hb : delRedisF fl key s i = (.ok 0, s, i + 1) := by
        simp [delRedisF, hfl, hsome]
      rw [hb]
      exact ⟨by simp, fun q hq => Except.noConfusion hq⟩

end Faulty

namespace Faulty

theorem sonly_setSizeF {ε : Type} (fl : Nat → Option ε) (cfg : Config)
    (v : JsVal) : SOnly fl (setSizeF fl cfg v) :=
  sonly_setRedisF fl cfg "QUEUE_SIZE" v

theorem sonly_setCountF {ε : Type} (fl : Nat → Option ε) (cfg : Config)
    (v : JsVal) : SOnly fl (setCountF fl cfg v) :=
  sonly_setRedisF fl cfg "QUEUE_COUNT" v

theorem sonly_initializeRedisF {ε : Type} (fl : Nat → Option ε)
    (cfg : Config) : SOnly fl (initializeRedisF fl cfg) :=
  sonly_bind (sonly_setCountF fl cfg _) fun _ => sonly_setSizeF fl cfg _

theorem sonly_getSizeF {ε : Type} (fl : Nat → Option ε) (cfg : Config) :
    SOnly fl (getSizeF fl cfg) := by
  refine sonly_bind (sonly_getRedisF fl "QUEUE_SIZE") fun r => ?_
  cases r with
  | none =>
    exact sonly_bind (sonly_initializeRedisF fl cfg) fun _ =>
      sonly_pure fl _
  | some v => exact sonly_pure fl _

theorem sonly_getCountF {ε : Type} (fl : Nat → Option ε) (cfg : Config) :
    SOnly fl (getCountF fl cfg) := by
  refine sonly_bind (sonly_getRedisF fl "QUEUE_COUNT") fun r => ?_
  cases r with
  | none =>
    exact sonly_bind (sonly_initializeRedisF fl cfg) fun _ =>
      sonly_pure fl _
  | some v => exact sonly_pure fl _

theorem sonly_up1CountF {ε : Type} (fl : Nat → Option ε) (cfg : Config) :
    SOnly fl (up1CountF fl cfg) :=
  sonly_bind (sonly_getCountF fl cfg) fun _ => sonly_setCountF fl cfg _

theorem sonly_down1CountF {ε : Type} (fl : Nat → Option ε) (cfg : Config) :
    SOnly fl (down1CountF fl cfg) :=
  sonly_bind (sonly_getCountF fl cfg) fun _ => sonly_setCountF fl cfg _

theorem sonly_isFullQueueF {ε : Type} (fl : Nat → Option ε)
    (cfg : Config) : SOnly fl (isFullQueueF fl cfg) :=
  sonly_bind (sonly_getCountF fl cfg) fun _ =>
    sonly_bind (sonly_getSizeF fl cfg) fun _ => sonly_pure fl _

theorem sonly_setRequestF {ε : Type} (fl : Nat → Option ε) (cfg : Config)
    (key : String) : SOnly fl (setRequestF fl cfg key) :=
  sonly_setRedisF fl cfg key _

theorem sfull_addRequestF {ε : Type} (fl : Nat → Option ε)
    (cfg : Config) : SFull fl (addRequestF fl cfg) := by
  refine sfull_bind (sonly_isFullQueueF fl cfg).toSFull fun full => ?_
  cases full with
  | true => exact sfull_fullRejectF fl
  | false => exact (sonly_up1CountF fl cfg).toSFull

theorem sonly_checkDoneF {ε : Type} (fl : Nat → Option ε) (id : String) :
    SOnly fl (checkDoneF fl id) :=
  sonly_bind (sonly_getRedisF fl id) fun _ => sonly_pure fl _

theorem sonly_removeRequestF {ε : Type} (fl : Nat → Option ε)
    (cfg : Config) (id : String) :
    SOnly fl (removeRequestF fl cfg id) := by
  refine sonly_bind (sonly_checkDoneF fl id) fun isDone => ?_
  by_cases hnull : isDone = AsyncApiQueue.DoneRes.nullv
  · simp only [hnull, if_true]
    exact sonly_pure fl _
  · simp only [hnull, if_false]
    refine sonly_bind (sonly_delRedisF fl id) fun result => ?_
    by_cases hguard : result = 1 && AsyncApiQueue.jsFalsyDone isDone
    · simp only [hguard, if_true]
      exact sonly_bind (sonly_down1CountF fl cfg) fun _ => sonly_pure fl _
    · simp only [hguard, Bool.false_eq_true, if_false]
      exact sonly_pure fl _

theorem sonly_setDoneF {ε : Type} (fl : Nat → Option ε) (cfg : Config)
    (id response : String) : SOnly fl (setDoneF fl cfg id response) :=
  sonly_bind (sonly_setRedisF fl cfg id _) fun _ =>
    sonly_bind (sonly_down1CountF fl cfg) fun _ => sonly_pure fl _

theorem sonly_runF {ε : Type} (fl : Nat → Option ε) (cfg : Config)
    (op : AsyncApiQueue.Op) (hop : op ≠ .add) :
    SOnly fl (runF fl cfg op) := by
  cases op with
  | add => exact absurd rfl hop
  | setReq id =>
    exact sonly_bind (sonly_setRequestF fl cfg id) fun _ => sonly_pure fl _
  | check id =>
    exact sonly_bind (sonly_checkDoneF fl id) fun _ => sonly_pure fl _
  | done id r =>
    exact sonly_bind (sonly_setDoneF fl cfg id r) fun _ => sonly_pure fl _
  | remove id =>
    exact sonly_bind (sonly_removeRequestF fl cfg id) fun _ =>
      sonly_pure fl _
  | size =>
    exact sonly_bind (sonly_getSizeF fl cfg) fun _ => sonly_pure fl _
  | count =>
    exact sonly_bind (sonly_getCountF fl cfg) fun _ => sonly_pure fl _

theorem sfull_runF {ε : Type} (fl : Nat → Option ε) (cfg : Config)
    (op : AsyncApiQueue.Op) : SFull fl (runF fl cfg op) := by
  cases op with
  | add =>
    exact sfull_bind (sfull_addRequestF fl cfg) fun _ =>
      (sonly_pure fl _).toSFull
  | setReq id => exact (sonly_runF fl cfg (.setReq id) (by simp)).toSFull
  | check id => exact (sonly_runF fl cfg (.check id) (by simp)).toSFull
  | done id r => exact (sonly_runF fl cfg (.done id r) (by simp)).toSFull
  | remove id => exact (sonly_runF fl cfg (.remove id) (by simp)).toSFull
  | size => exact (sonly_runF fl cfg .size (by simp)).toSFull
  | count => exact (sonly_runF fl cfg .count (by simp)).toSFull

/-- The very first store round trip's fault, when scheduled, is rejected
immediately, unchanged, with the store untouched. -/
def FirstFault {ε α : Type} (fl : Nat → Option ε) (m : MF ε α) : Prop :=
  ∀ s i e, fl i = some e → m s i = (.error (.store e), s, i + 1)

theorem firstFault_bind {ε α β : Type} {fl : Nat → Option ε}
    {m : MF ε α} {f : α → MF ε β} (hm : FirstFault fl m) :
    FirstFault fl (bindF m f) := by
  intro s i e hfl
  simp [bindF, hm s i e hfl]

theorem firstFault_getRedisF {ε : Type} (fl : Nat → Option ε)
    (key : String) : FirstFault fl (getRedisF fl key) := by
  intro s i e hfl
  simp [getRedisF, hfl]

theorem firstFault_setRedisF {ε : Type} (fl : Nat → Option ε)
    (cfg : Config) (key : String) (v : JsVal) :
    FirstFault fl (setRedisF fl cfg key v) := by
  intro s i e hfl
  simp [setRedisF, hfl]

theorem firstFault_runF {ε : Type} (fl : Nat → Option ε) (cfg : Config)
    (op : AsyncApiQueue.Op) : FirstFault fl (runF fl cfg op) := by
  cases op with
  | add =>
    exact firstFault_bind (firstFault_bind (firstFault_bind
      (firstFault_bind (firstFault_getRedisF fl "QUEUE_COUNT"))))
  | setReq id =>
    exact firstFault_bind (firstFault_setRedisF fl cfg id _)
  | check id =>
    exact firstFault_bind (firstFault_bind (firstFault_getRedisF fl id))
  | done id r =>
    exact firstFault_bind (firstFault_bind (firstFault_setRedisF fl cfg id _))
  | remove id =>
    exact firstFault_bind (firstFault_bind (firstFault_bind
      (firstFault_getRedisF fl id)))
  | size =>
    exact firstFault_bind (firstFault_bind (firstFault_getRedisF fl "QUEUE_SIZE"))
  | count =>
    exact firstFault_bind (firstFault_bind (firstFault_getRedisF fl "QUEUE_COUNT"))

end Faulty

/-- C7: on every store, under every schedule of store faults, each public
operation of the lib module either resolves with a value, or rejects with
the queue-full rejection, or rejects with a store error that is one of
the scheduled faults, surfaced unchanged; the queue-full rejection can
only come from `addRequest`; and a fault on the very first store round
trip is propagated to the caller as-is (no retry, no reconnection: the
operation rejects immediately with that exact error). -/
theorem c7_error_taxonomy {ε : Type} (fl : Nat → Option ε) (cfg : Config)
    (op : AsyncApiQueue.Op) (s : Store) :
    ((∃ v, (Faulty.runF fl cfg op s 0).1 = .ok v) ∨
      (Faulty.runF fl cfg op s 0).1 = .error .full ∨
      (∃ e j, (Faulty.runF fl cfg op s 0).1 = .error (.store e) ∧
        j < (Faulty.runF fl cfg op s 0).2.2 ∧ fl j = some e)) ∧
    ((Faulty.runF fl cfg op s 0).1 = .error .full → op = .add) ∧
    (∀ e0, fl 0 = some e0 →
      Faulty.runF fl cfg op s 0 = (.error (.store e0), s, 1)) := by
  refine ⟨?_, ?_, ?_⟩
  · obtain ⟨hmono, herr⟩ := Faulty.sfull_runF fl cfg op s 0
    rcases hr : (Faulty.runF fl cfg op s 0).1 with q | v
    · rcases herr q hr with hq | ⟨e, j, hqe, hij, hjlt, hflj⟩
      · subst hq
        exact .inr (.inl rfl)
      · subst hqe
        exact .inr (.inr ⟨e, j, rfl, hjlt, hflj⟩)
    · exact .inl ⟨v, rfl⟩
  · intro hfull
    by_cases hop : op = .add
    · exact hop
    · obtain ⟨hmono, herr⟩ := Faulty.sonly_runF fl cfg op hop s 0
      obtain ⟨e, j, hqe, hij, hjlt, hflj⟩ := herr .full hfull
      exact absurd hqe (by simp)
  · intro e0 h0
    exact Faulty.firstFault_runF fl cfg op s 0 e0 h0

/-- Witness for C7: with a schedule that faults every round trip with the
error value 7, `checkDone("a")` rejects with exactly that store error
after one round trip; with the fault-free schedule, `addRequest` on a
full queue of size 0 rejects with the queue-full rejection (from
`addRequest`). -/
theorem c7_witness :
    Faulty.runF (fun _ => some 7) demoCfg (.check "a") emptyStore 0
      = (.error (.store 7), emptyStore, 1) ∧
    (Faulty.runF (fun _ => (none : Option Nat)) ⟨0, 86400⟩ .add
        (AsyncApiQueue.initializeRedis ⟨0, 86400⟩ emptyStore) 0).1
      = .error .full := by
  constructor
  · exact (c7_error_taxonomy (fun _ => some 7) demoCfg (.check "a")
      emptyStore).2.2 7 rfl
  · decide
